import Mathlib

/-!
NPC battle simulation: entity model, factory, combat visitor, combat loop, roster file.

Shallow embedding of `functions.h` / `functions.cpp`.

* An `NPC` object is a record; the subclass (`Orc`, `Bear`, `Squirrel`) is the field `kind`.
  Every method is modelled by its sequential meaning (the per-object `shared_mutex` only
  serialises the accesses, it computes nothing).
* A `std::mt19937` read through one `uniform_int_distribution` is the stream of the values
  that distribution returns, together with the number of values already taken.
* The observers are modelled by the trace of their `on_kill` invocations.
* The registry `vector<shared_ptr<NPC>>` is a list of records: every slot owns its own object,
  as everything that fills the vector in the repository does (`make_shared` in the factory).
* The locks of the worker loops are modelled by the sequence of `lock_guard` constructions and
  destructions of each loop iteration, run side by side by a step function.
-/

/-! ## Constants and machine integers -/

/-- Constant `MAP_WIDTH` of `functions.h`. -/
def MAP_WIDTH : Int := 100

/-- Constant `MAP_HEIGHT` of `functions.h`. -/
def MAP_HEIGHT : Int := 100

/-- Result of an `int` operation brought back into the 32-bit two's-complement range. -/
def wrapInt (z : Int) : Int := (z + 2147483648) % 4294967296 - 2147483648

/-! ## Entities -/

/-- The three subclasses of `NPC`. -/
inductive Kind where
  | Orc
  | Bear
  | Squirrel
deriving DecidableEq, Repr

/-- Fields of `class NPC`, with the dynamic type as `kind`. -/
structure NPC where
  kind : Kind
  name : String
  x : Int
  y : Int
  alive : Bool
deriving DecidableEq, Repr

/-- Generator read through a fixed distribution: `draws k` is the `k`-th value returned,
`pos` the number of values taken so far. -/
structure Gen where
  draws : Nat → Int
  pos : Nat

/-- One call `dist(gen)`: the next value, and the advanced generator. -/
def Gen.next (g : Gen) : Int × Gen := (g.draws g.pos, { g with pos := g.pos + 1 })

namespace NPC

/-- Methods `Orc::type`, `Bear::type`, `Squirrel::type`. -/
def type (n : NPC) : String :=
  match n.kind with
  | Kind.Orc => "Orc"
  | Kind.Bear => "Bear"
  | Kind.Squirrel => "Squirrel"

/-- Methods `get_kill_distance` of the three subclasses. -/
def get_kill_distance (n : NPC) : Int :=
  match n.kind with
  | Kind.Orc => 10
  | Kind.Bear => 10
  | Kind.Squirrel => 5

/-- Methods `get_move_distance` of the three subclasses. -/
def get_move_distance (n : NPC) : Int :=
  match n.kind with
  | Kind.Orc => 20
  | Kind.Bear => 5
  | Kind.Squirrel => 5

/-- Method `NPC::is_alive`. -/
def is_alive (n : NPC) : Bool := n.alive

/-- Method `NPC::get_name`. -/
def get_name (n : NPC) : String := n.name

/-- Method `NPC::get_x`. -/
def get_x (n : NPC) : Int := n.x

/-- Method `NPC::get_y`. -/
def get_y (n : NPC) : Int := n.y

/-- Method `NPC::kill`: `alive = false`, nothing else is written. -/
def kill (n : NPC) : NPC := { n with alive := false }

/-- Method `NPC::move`: nothing for a dead object; otherwise the candidate position is taken
only when it passes the map-bounds test. -/
def move (n : NPC) (dx dy : Int) : NPC :=
  if !n.alive then n
  else
    let new_x := wrapInt (n.x + dx)
    let new_y := wrapInt (n.y + dy)
    if new_x ≥ 0 ∧ new_x < MAP_WIDTH ∧ new_y ≥ 0 ∧ new_y < MAP_HEIGHT then
      { n with x := new_x, y := new_y }
    else n

/-- Method `NPC::move_random`: nothing (and no draw) for a dead object; otherwise two draws of
`dir_dist`, first `dx` then `dy`, and `move`. -/
def move_random (n : NPC) (gen : Gen) : NPC × Gen :=
  if !n.is_alive then (n, gen)
  else
    let (dx, g1) := gen.next
    let (dy, g2) := g1.next
    (n.move dx dy, g2)

/-- Position inside `[0, MAP_WIDTH) x [0, MAP_HEIGHT)`. -/
def onMap (n : NPC) : Prop := 0 ≤ n.x ∧ n.x < MAP_WIDTH ∧ 0 ≤ n.y ∧ n.y < MAP_HEIGHT

instance (n : NPC) : Decidable n.onMap := by unfold onMap; infer_instance

end NPC

/-- One method call on an entity, as a client may issue it. -/
inductive Call where
  | move (dx dy : Int)
  | move_random
  | kill

/-- Effect of one call on the entity and on the generator of the calling thread. -/
def Call.run (c : Call) (s : NPC × Gen) : NPC × Gen :=
  match c with
  | Call.move dx dy => (s.1.move dx dy, s.2)
  | Call.move_random => s.1.move_random s.2
  | Call.kill => (s.1.kill, s.2)

/-- Effect of a sequence of calls, first call first. -/
def runCalls (cs : List Call) (s : NPC × Gen) : NPC × Gen :=
  cs.foldl (fun st c => c.run st) s

/-! ## Factory -/

namespace NPCFactory

/-- Function `NPCFactory::create`: the coordinate test comes first, then the type name is
matched; a `runtime_error` is the `error` result carrying its message. -/
def create (type name : String) (x y : Int) : Except String NPC :=
  if x < 0 ∨ x ≥ MAP_WIDTH ∨ y < 0 ∨ y ≥ MAP_HEIGHT then
    Except.error "Координаты вне диапазона карты"
  else if type = "Orc" then Except.ok ⟨Kind.Orc, name, x, y, true⟩
  else if type = "Bear" then Except.ok ⟨Kind.Bear, name, x, y, true⟩
  else if type = "Squirrel" then Except.ok ⟨Kind.Squirrel, name, x, y, true⟩
  else Except.error "Неизвестный тип NPC"

end NPCFactory

/-! ## Observers and the combat visitor -/

/-- The two observer classes of `functions.h`; a file observer is known by its file name. -/
inductive Observer where
  | ConsoleObserver
  | FileObserver (filename : String)
deriving DecidableEq, Repr

/-- One invocation `obs->on_kill(killer, victim)` on the observer `sink`. -/
structure KillEvent where
  sink : Observer
  killer : String
  victim : String
deriving DecidableEq, Repr

/-- Squared distance as `NPC::distance_to(int, int)` forms it in `int` arithmetic, before the
conversion to `double` for `std::sqrt`. -/
def NPC.distance_sq (n : NPC) (other_x other_y : Int) : Int :=
  wrapInt (wrapInt (wrapInt (n.x - other_x) * wrapInt (n.x - other_x)) +
    wrapInt (wrapInt (n.y - other_y) * wrapInt (n.y - other_y)))

/-- Test `distance_to(...) <= kill_distance` for an integer `kill_distance ≥ 0`. The square
root of a negative argument is NaN and compares false; for an argument `d ≥ 0` the rounded
square root is at most the integer `k` exactly when `d ≤ k * k` (for the values `k ≤ 10` used
here `sqrt (k * k + 1)` exceeds `k` by far more than one rounding step). -/
def NPC.within (n : NPC) (other_x other_y : Int) (kill_distance : Int) : Bool :=
  decide (0 ≤ n.distance_sq other_x other_y ∧
    n.distance_sq other_x other_y ≤ kill_distance * kill_distance)

namespace BattleVisitor

/-- What one `accept` call leaves behind: the visited object, the generator, and the
`on_kill` invocations it made, in the order they were made. -/
structure Outcome where
  npc : NPC
  gen : Gen
  events : List KillEvent

/-- Method `BattleVisitor::roll_dice_battle`: two draws of `dice`, the first is
`attack_power`, the second `defense_power`. -/
def roll_dice_battle (gen : Gen) : Bool × Gen :=
  let (attack_power, g1) := gen.next
  let (defense_power, g2) := g1.next
  (decide (attack_power > defense_power), g2)

/-- Method `BattleVisitor::notify`: one `on_kill` per element of `observers`, in the order of
the vector. -/
def notify (attacker : NPC) (observers : List Observer) (victim : String) : List KillEvent :=
  observers.map fun obs => ⟨obs, attacker.get_name, victim⟩

/-- Method `BattleVisitor::visit(Orc&)`. -/
def visitOrc (attacker : NPC) (observers : List Observer) (gen : Gen) (npc : NPC) : Outcome :=
  if !npc.is_alive then ⟨npc, gen, []⟩
  else if attacker.type = "Orc" ∨ attacker.type = "Bear" then
    if (roll_dice_battle gen).1 then
      ⟨npc.kill, (roll_dice_battle gen).2, notify attacker observers npc.kill.get_name⟩
    else ⟨npc, (roll_dice_battle gen).2, []⟩
  else ⟨npc, gen, []⟩

/-- Method `BattleVisitor::visit(Bear&)`. -/
def visitBear (attacker : NPC) (observers : List Observer) (gen : Gen) (npc : NPC) : Outcome :=
  if !npc.is_alive then ⟨npc, gen, []⟩
  else if attacker.type = "Orc" then
    if (roll_dice_battle gen).1 then
      ⟨npc.kill, (roll_dice_battle gen).2, notify attacker observers npc.kill.get_name⟩
    else ⟨npc, (roll_dice_battle gen).2, []⟩
  else ⟨npc, gen, []⟩

/-- Method `BattleVisitor::visit(Squirrel&)`: an empty body. -/
def visitSquirrel (_attacker : NPC) (_observers : List Observer) (gen : Gen) (npc : NPC) :
    Outcome :=
  ⟨npc, gen, []⟩

/-- Call `npc.accept(visitor)` for a visitor built from `attacker`, `observers`, `gen`: the
overload of `visit` is chosen by the dynamic type of `npc`. -/
def accept (attacker : NPC) (observers : List Observer) (gen : Gen) (npc : NPC) : Outcome :=
  match npc.kind with
  | Kind.Orc => visitOrc attacker observers gen npc
  | Kind.Bear => visitBear attacker observers gen npc
  | Kind.Squirrel => visitSquirrel attacker observers gen npc

end BattleVisitor

/-- The pairs (attacker kind, defender kind) of the legality table: Orc→Orc, Orc→Bear,
Bear→Orc. -/
def legalPair (a d : Kind) : Bool :=
  match a, d with
  | Kind.Orc, Kind.Orc => true
  | Kind.Orc, Kind.Bear => true
  | Kind.Bear, Kind.Orc => true
  | _, _ => false

/-! ## Combat loop -/

namespace GameManager

/-- What the combat thread works on: the registry `npcs`, its generator, and the `on_kill`
invocations made so far. -/
structure BattleState where
  npcs : List NPC
  gen : Gen
  log : List KillEvent

/-- Test `npcs[i]->is_alive()`. -/
def alive_at (s : BattleState) (i : Nat) : Bool :=
  match s.npcs[i]? with
  | some n => n.is_alive
  | none => false

/-- Test `distance <= npcs[i]->get_kill_distance() && distance <= npcs[j]->get_kill_distance()`
with `distance = npcs[i]->distance_to(*npcs[j])`. -/
def in_range_at (s : BattleState) (i j : Nat) : Bool :=
  match s.npcs[i]?, s.npcs[j]? with
  | some a, some b =>
    a.within b.x b.y a.get_kill_distance && a.within b.x b.y b.get_kill_distance
  | _, _ => false

/-- Statements `BattleVisitor visitor(*npcs[a], observers, gen); npcs[d]->accept(visitor);`. -/
def resolve (observers : List Observer) (a d : Nat) (s : BattleState) : BattleState :=
  match s.npcs[a]?, s.npcs[d]? with
  | some attacker, some npc =>
    let r := BattleVisitor.accept attacker observers s.gen npc
    { npcs := s.npcs.set d r.npc, gen := r.gen, log := s.log ++ r.events }
  | _, _ => s

/-- Body of the inner loop of `battle_worker` for the indices `i`, `j`. -/
def pair_body (observers : List Observer) (i j : Nat) (s : BattleState) : BattleState :=
  if !alive_at s j then s
  else if in_range_at s i j then
    let s1 := resolve observers i j s
    if alive_at s1 i && alive_at s1 j then resolve observers j i s1 else s1
  else s

/-- Inner loop `for (j = i + 1; j < npcs.size(); ++j)`; the size does not change before the
sweep. -/
def inner_loop (observers : List Observer) (i : Nat) (s : BattleState) : BattleState :=
  (List.range' (i + 1) (s.npcs.length - (i + 1))).foldl
    (fun st j => pair_body observers i j st) s

/-- Body of the outer loop for the index `i`: a dead `npcs[i]` is skipped. -/
def outer_body (observers : List Observer) (i : Nat) (s : BattleState) : BattleState :=
  if !alive_at s i then s else inner_loop observers i s

/-- Outer loop `for (i = 0; i < npcs.size(); ++i)`. -/
def pair_loop (observers : List Observer) (s : BattleState) : BattleState :=
  (List.range s.npcs.length).foldl (fun st i => outer_body observers i st) s

/-- Statement `npcs.erase(std::remove_if(..., !n->is_alive()), npcs.end())`: the alive
entities stay, in their order. -/
def sweep (s : BattleState) : BattleState :=
  { s with npcs := s.npcs.filter fun n => n.is_alive }

/-- One iteration body of `battle_worker` (after the sleep): the pair loop, then the sweep. -/
def battle_tick (observers : List Observer) (s : BattleState) : BattleState :=
  sweep (pair_loop observers s)

end GameManager

/-! ## Roster file -/

/-- Classification `std::isspace` in the "C" locale: space, `\t`, `\n`, `\v`, `\f`, `\r`. -/
def isspace (c : Char) : Bool :=
  c = ' ' || c = '\t' || c = '\n' || c = Char.ofNat 11 || c = Char.ofNat 12 || c = '\r'

/-- Decimal digit character of `d < 10`. -/
def digitChar (d : Nat) : Char := Char.ofNat (48 + d)

/-- Decimal digits of a natural number, most significant first; `fuel` bounds the number of
digits. -/
def natToChars : Nat → Nat → List Char
  | 0, _ => []
  | fuel + 1, n =>
    if n < 10 then [digitChar n] else natToChars fuel (n / 10) ++ [digitChar (n % 10)]

/-- Characters written by `out << v` for an `int` `v`: a minus sign for a negative value, then
the decimal digits. -/
def intToChars (v : Int) : List Char :=
  if v < 0 then '-' :: natToChars ((-v).toNat + 1) (-v).toNat
  else natToChars (v.toNat + 1) v.toNat

/-- Extraction `in >> s` for a `std::string`: leading whitespace is skipped, then characters
are taken up to the next whitespace or the end; it fails when no character is taken. The
result is the string and the unread input. -/
def read_string (input : List Char) : Option (String × List Char) :=
  let rest := input.dropWhile isspace
  let token := rest.takeWhile fun c => !isspace c
  if token = [] then none
  else some (String.mk token, rest.dropWhile fun c => !isspace c)

/-- Extraction `in >> v` for an `int`: leading whitespace is skipped, an optional sign is
read, then the longest run of decimal digits; it fails when there is no digit or when the
value does not fit an `int`. The result is the value and the unread input. -/
def read_int (input : List Char) : Option (Int × List Char) :=
  let rest := input.dropWhile isspace
  let body := if rest.head? = some '-' ∨ rest.head? = some '+' then rest.tail else rest
  let digits := body.takeWhile Char.isDigit
  if digits = [] then none
  else
    let magnitude : Nat := digits.foldl (fun acc c => acc * 10 + (c.toNat - 48)) 0
    let v : Int := if rest.head? = some '-' then -(magnitude : Int) else (magnitude : Int)
    if v < -2147483648 ∨ v > 2147483647 then none
    else some (v, body.dropWhile Char.isDigit)

/-- Characters written for one entity by `save_to_file`:
`type << " " << name << " " << x << " " << y << endl`. -/
def save_line (n : NPC) : List Char :=
  n.type.data ++ ' ' :: (n.get_name.data ++ ' ' :: (intToChars n.get_x ++ ' ' ::
    (intToChars n.get_y ++ ['\n'])))

/-- Function `save_to_file`: the content written to `npcs.txt`, one line per alive entity, in
the order of the vector. -/
def save_to_file : List NPC → List Char
  | [] => []
  | n :: rest => if n.is_alive then save_line n ++ save_to_file rest else save_to_file rest

/-- Loop `while (in >> type >> name >> x >> y) npcs.push_back(NPCFactory::create(...))` of
`load_from_file`: it ends normally at the first record that cannot be read and with the
factory's exception when `create` throws. Every turn takes at least one character, so `fuel`
above the input length is never used up. -/
def load_loop : Nat → List Char → List NPC → Except String (List NPC)
  | 0, _, npcs => Except.ok npcs
  | fuel + 1, input, npcs =>
    match read_string input with
    | none => Except.ok npcs
    | some (type, r1) =>
      match read_string r1 with
      | none => Except.ok npcs
      | some (name, r2) =>
        match read_int r2 with
        | none => Except.ok npcs
        | some (x, r3) =>
          match read_int r3 with
          | none => Except.ok npcs
          | some (y, r4) =>
            match NPCFactory.create type name x y with
            | Except.error e => Except.error e
            | Except.ok n => load_loop fuel r4 (npcs ++ [n])

/-- Function `load_from_file` on the content of `npcs.txt`: the vector is cleared, then
filled by the loop. -/
def load_from_file (content : List Char) : Except String (List NPC) :=
  load_loop (content.length + 1) content []

/-- The tuple (kind, name, x, y) of an entity. -/
def NPC.tuple (n : NPC) : Kind × String × Int × Int := (n.kind, n.name, n.x, n.y)

/-- An alive Orc named "Big Orc" at (0,0). -/
def bigOrc : NPC := ⟨Kind.Orc, "Big Orc", 0, 0, true⟩

/-! ## Concrete registries used to run the combat loop -/

/-- Three alive Orcs "A", "B", "C" on the cell (0,0); the dice give 1, 6, then 6, 1, 6, 1, ... -/
def threeOrcs : GameManager.BattleState :=
  ⟨[⟨Kind.Orc, "A", 0, 0, true⟩, ⟨Kind.Orc, "B", 0, 0, true⟩, ⟨Kind.Orc, "C", 0, 0, true⟩],
    ⟨fun k => if k = 0 then 1 else if k = 1 then 6 else if k % 2 = 0 then 6 else 1, 0⟩, []⟩

/-- Two alive Orcs "A" at (0,0) and "B" at (5,0); the dice give 6, 1, 6, 1, ... -/
def twoOrcs : GameManager.BattleState :=
  ⟨[⟨Kind.Orc, "A", 0, 0, true⟩, ⟨Kind.Orc, "B", 5, 0, true⟩],
    ⟨fun k => if k % 2 = 0 then 6 else 1, 0⟩, []⟩

/-! ## Range condition and the relation kept by the pair loop -/

/-- Range condition as the specification words it: the squared Euclidean distance of the two
positions is at most the square of the smaller of the two kill distances. -/
def NPC.inKillRange (a b : NPC) : Prop :=
  (a.x - b.x) ^ 2 + (a.y - b.y) ^ 2 ≤ (min a.get_kill_distance b.get_kill_distance) ^ 2

instance (a b : NPC) : Decidable (a.inKillRange b) := by unfold NPC.inKillRange; infer_instance

/-- Relation between the state `s0` at the start of the pair loop and a later state `s` of
the same loop: the slots keep their number, kind, name and position, a dead slot stays dead,
every slot that died since `s0` has another slot within kill range (positions of `s0`), and
every `on_kill` invocation made since `s0` names a killer slot and a victim slot of `s0` within
kill range, the victim alive in `s0` and dead in `s`. -/
def GameManager.TickInv (s0 s : GameManager.BattleState) : Prop :=
  s.npcs.length = s0.npcs.length ∧
  (∀ (k : Nat) (n : NPC), s.npcs[k]? = some n → ∃ n0 : NPC, s0.npcs[k]? = some n0 ∧ n.kind = n0.kind ∧
    n.name = n0.name ∧ n.x = n0.x ∧ n.y = n0.y ∧ (n0.alive = false → n.alive = false)) ∧
  (∀ (d : Nat) (b : NPC), s0.npcs[d]? = some b → b.alive = true →
    GameManager.alive_at s d = false →
    ∃ (a : Nat) (c : NPC), a ≠ d ∧ s0.npcs[a]? = some c ∧ c.inKillRange b) ∧
  (∃ new, s.log = s0.log ++ new ∧ ∀ e ∈ new, ∃ (a d : Nat) (c b : NPC), a ≠ d ∧ s0.npcs[a]? = some c ∧
    s0.npcs[d]? = some b ∧ e.killer = c.name ∧ e.victim = b.name ∧ b.alive = true ∧
    GameManager.alive_at s d = false ∧ c.inKillRange b)


/-! ## Record of the kills of a tick -/

namespace GameManager

/-- Record of one `resolve` call: the pair (index of the attacker, index of the visited
object) when the call turned the visited object from alive to dead, nothing otherwise. -/
def resolve_kills (observers : List Observer) (a d : Nat) (s : BattleState) :
    List (Nat × Nat) :=
  if alive_at s d && !alive_at (resolve observers a d s) d then [(a, d)] else []

/-- Record of the kills made by the inner-loop body for the indices `i`, `j`, in the order
of its two `accept` calls. -/
def pair_body_kills (observers : List Observer) (i j : Nat) (s : BattleState) :
    List (Nat × Nat) :=
  if !alive_at s j then []
  else if in_range_at s i j then
    resolve_kills observers i j s ++
      (if alive_at (resolve observers i j s) i && alive_at (resolve observers i j s) j then
        resolve_kills observers j i (resolve observers i j s)
      else [])
  else []

/-- The inner-loop body together with the record of its kills. -/
def pair_body_traced (observers : List Observer) (i j : Nat)
    (t : BattleState × List (Nat × Nat)) : BattleState × List (Nat × Nat) :=
  (pair_body observers i j t.1, t.2 ++ pair_body_kills observers i j t.1)

/-- The inner loop together with the record of its kills. -/
def inner_loop_traced (observers : List Observer) (i : Nat)
    (t : BattleState × List (Nat × Nat)) : BattleState × List (Nat × Nat) :=
  (List.range' (i + 1) (t.1.npcs.length - (i + 1))).foldl
    (fun st j => pair_body_traced observers i j st) t

/-- The outer-loop body together with the record of its kills. -/
def outer_body_traced (observers : List Observer) (i : Nat)
    (t : BattleState × List (Nat × Nat)) : BattleState × List (Nat × Nat) :=
  if !alive_at t.1 i then t else inner_loop_traced observers i t

/-- The pair loop together with the record of its kills, first kill first. -/
def pair_loop_traced (observers : List Observer) (s : BattleState) :
    BattleState × List (Nat × Nat) :=
  (List.range s.npcs.length).foldl (fun st i => outer_body_traced observers i st) (s, [])

/-- The kills of one tick: (attacker index, victim index), first kill first. -/
def tick_kills (observers : List Observer) (s : BattleState) : List (Nat × Nat) :=
  (pair_loop_traced observers s).2

/-- Relation between the start state `s0`, a later state `s` and the kills recorded in
between: `TickInv`, every recorded kill is between two different slots of `s0` within kill
range with the victim alive in `s0` and dead in `s`, and every slot that died has a recorded
kill. -/
def KillRel (s0 s : BattleState) (kills : List (Nat × Nat)) : Prop :=
  TickInv s0 s ∧
  (∀ p ∈ kills, p.1 ≠ p.2 ∧ ∃ c b : NPC, s0.npcs[p.1]? = some c ∧ s0.npcs[p.2]? = some b ∧
    b.alive = true ∧ alive_at s p.2 = false ∧ c.inKillRange b) ∧
  (∀ (d : Nat) (b : NPC), s0.npcs[d]? = some b → b.alive = true → alive_at s d = false →
    ∃ a : Nat, (a, d) ∈ kills)

end GameManager

/-- Two alive Orcs "A" at (65536,0) and "B" at (0,0); the dice give 6, 1, 6, 1, ... -/
def farOrcs : GameManager.BattleState :=
  ⟨[⟨Kind.Orc, "A", 65536, 0, true⟩, ⟨Kind.Orc, "B", 0, 0, true⟩],
    ⟨fun k => if k % 2 = 0 then 6 else 1, 0⟩, []⟩

/-! ## Locks taken by the worker loops -/

/-- The `std::mutex` objects of the program: the global `cout_mutex`, the member
`GameManager::npcs_mutex` and the member `FileObserver::file_mutex`. The per-entity
`shared_mutex` is left out: every accessor releases it before it returns and takes no other
lock while holding it. -/
inductive Mutex where
  | cout_mutex
  | npcs_mutex
  | file_mutex
deriving DecidableEq, Repr

/-- A lock action of a thread: the constructor of a `lock_guard` (`acquire`) and its
destructor (`release`). -/
inductive LockOp where
  | acquire (m : Mutex)
  | release (m : Mutex)
deriving DecidableEq, Repr

/-- Lock actions of `ConsoleObserver::on_kill` and `FileObserver::on_kill`. -/
def Observer.on_kill_locks : Observer → List LockOp
  | Observer.ConsoleObserver => [LockOp.acquire Mutex.cout_mutex, LockOp.release Mutex.cout_mutex]
  | Observer.FileObserver _ => [LockOp.acquire Mutex.file_mutex, LockOp.release Mutex.file_mutex]

namespace GameManager

/-- The observers registered by the constructor `GameManager::GameManager`, in order. -/
def observers : List Observer :=
  [Observer.ConsoleObserver, Observer.FileObserver "battle_log.txt"]

/-- Lock actions of one iteration of `movement_worker`: the guard on `npcs_mutex` around the
loop over the registry. -/
def movement_worker_locks : List LockOp :=
  [LockOp.acquire Mutex.npcs_mutex, LockOp.release Mutex.npcs_mutex]

/-- Lock actions of one iteration of `battle_worker` on the registry state `s`: the guard on
`npcs_mutex` is held over the pair loop and the sweep, and inside it every `on_kill`
invocation of the tick takes the lock of its observer. -/
def battle_worker_locks (observers : List Observer) (s : BattleState) : List LockOp :=
  LockOp.acquire Mutex.npcs_mutex ::
    (((battle_tick observers { s with log := [] }).log.flatMap fun e => e.sink.on_kill_locks) ++
      [LockOp.release Mutex.npcs_mutex])

/-- Lock actions of `print_map` (and of `print_survivors`): the guard on `cout_mutex` first,
then the guard on `npcs_mutex`; the destructors run in reverse order. -/
def print_map_locks : List LockOp :=
  [LockOp.acquire Mutex.cout_mutex, LockOp.acquire Mutex.npcs_mutex,
    LockOp.release Mutex.npcs_mutex, LockOp.release Mutex.cout_mutex]

/-- Lock actions of one iteration of `display_worker`: `print_map`, then the block that
prints the alive count under `cout_mutex` and, inside it, `npcs_mutex`. -/
def display_worker_locks : List LockOp :=
  print_map_locks ++
    [LockOp.acquire Mutex.cout_mutex, LockOp.acquire Mutex.npcs_mutex,
      LockOp.release Mutex.npcs_mutex, LockOp.release Mutex.cout_mutex]

end GameManager

/-- The pairs (mutex held, mutex acquired while holding it) of a sequence of lock actions that
starts with the mutexes `held`. -/
def lockOrderPairs : List Mutex → List LockOp → List (Mutex × Mutex)
  | _, [] => []
  | held, LockOp.acquire m :: rest =>
    held.map (fun h => (h, m)) ++ lockOrderPairs (m :: held) rest
  | held, LockOp.release m :: rest => lockOrderPairs (held.erase m) rest

/-- Threads running side by side: the lock actions each thread still has to perform, and
which thread owns which mutex. -/
structure Sched where
  threads : List (List LockOp)
  owner : List (Mutex × Nat)
deriving DecidableEq, Repr

namespace Sched

/-- Thread `t` performs its next lock action, when it can: `acquire` of a mutex that some
thread owns blocks (a `std::mutex` is not recursive), `release` gives the mutex back. `none`
when the thread is blocked or has nothing left to do. -/
def step (t : Nat) (s : Sched) : Option Sched :=
  match s.threads[t]? with
  | some (LockOp.acquire m :: rest) =>
    if s.owner.any (fun p => p.1 = m) then none
    else some ⟨s.threads.set t rest, (m, t) :: s.owner⟩
  | some (LockOp.release m :: rest) =>
    some ⟨s.threads.set t rest, s.owner.filter fun p => p ≠ (m, t)⟩
  | _ => none

/-- The threads named in `order` perform one lock action each, in that order. -/
def run : List Nat → Sched → Option Sched
  | [], s => some s
  | t :: order, s =>
    match step t s with
    | some s1 => run order s1
    | none => none

/-- Some thread still has lock actions to perform and no thread can perform its next one. -/
def deadlocked (s : Sched) : Bool :=
  s.threads.any (fun ops => !ops.isEmpty) &&
    (List.range s.threads.length).all fun t => (step t s).isNone

end Sched

/-- The combat thread, about to run a tick on `twoOrcs` with the observers of the
constructor, next to the render thread, about to run one iteration. -/
def battleAndDisplay : Sched :=
  ⟨[GameManager.battle_worker_locks GameManager.observers twoOrcs,
    GameManager.display_worker_locks], []⟩

/-! ## Entity and factory theorems -/

theorem NPC.onMap_kill {n : NPC} (h : n.onMap) : n.kill.onMap := h

theorem NPC.onMap_move {n : NPC} (dx dy : Int) (h : n.onMap) : (n.move dx dy).onMap := by
  unfold NPC.move
  split
  · exact h
  · dsimp only
    split
    · rename_i hb
      exact ⟨hb.1, hb.2.1, hb.2.2.1, hb.2.2.2⟩
    · exact h

theorem NPC.onMap_move_random {n : NPC} (g : Gen) (h : n.onMap) : (n.move_random g).1.onMap := by
  unfold NPC.move_random
  split
  · exact h
  · exact NPC.onMap_move _ _ h

theorem Call.onMap_run (c : Call) {s : NPC × Gen} (h : s.1.onMap) : (c.run s).1.onMap := by
  cases c with
  | move dx dy => exact NPC.onMap_move dx dy h
  | move_random => exact NPC.onMap_move_random s.2 h
  | kill => exact NPC.onMap_kill h

theorem onMap_runCalls (cs : List Call) : ∀ {s : NPC × Gen}, s.1.onMap → (runCalls cs s).1.onMap := by
  induction cs with
  | nil => intro s h; exact h
  | cons c cs ih =>
    intro s h
    simp only [runCalls, List.foldl_cons]
    exact ih (Call.onMap_run c h)

theorem NPCFactory.create_ok {type name : String} {x y : Int} {n : NPC}
    (h : NPCFactory.create type name x y = Except.ok n) :
    (type = "Orc" ∨ type = "Bear" ∨ type = "Squirrel") ∧
      (0 ≤ x ∧ x < MAP_WIDTH ∧ 0 ≤ y ∧ y < MAP_HEIGHT) ∧
      n.type = type ∧ n.name = name ∧ n.x = x ∧ n.y = y ∧ n.alive = true := by
  unfold NPCFactory.create at h
  split at h
  · cases h
  · rename_i hb
    have hb2 : 0 ≤ x ∧ x < MAP_WIDTH ∧ 0 ≤ y ∧ y < MAP_HEIGHT := by
      simp only [not_or, not_lt, ge_iff_le, not_le] at hb
      exact hb
    split at h
    · rename_i ht
      cases h
      exact ⟨Or.inl ht, hb2, ht.symm, rfl, rfl, rfl, rfl⟩
    · split at h
      · rename_i ht
        cases h
        exact ⟨Or.inr (Or.inl ht), hb2, ht.symm, rfl, rfl, rfl, rfl⟩
      · split at h
        · rename_i ht
          cases h
          exact ⟨Or.inr (Or.inr ht), hb2, ht.symm, rfl, rfl, rfl, rfl⟩
        · cases h

/-- C1: an entity that starts on the map (in particular one returned by `NPCFactory::create`)
is on the map, `[0,100) x [0,100)`, after each call of every finite sequence of `move`,
`move_random` and `kill` calls: the claim holds after the first `k` calls for every `k`. -/
theorem C1_position_stays_on_map (n : NPC) (gen : Gen) (calls : List Call) (k : Nat)
    (h : n.onMap ∨ ∃ type name x y, NPCFactory.create type name x y = Except.ok n) :
    0 ≤ (runCalls (calls.take k) (n, gen)).1.x ∧ (runCalls (calls.take k) (n, gen)).1.x < 100 ∧
      0 ≤ (runCalls (calls.take k) (n, gen)).1.y ∧ (runCalls (calls.take k) (n, gen)).1.y < 100 := by
  have h0 : n.onMap := by
    rcases h with h | ⟨type, name, x, y, hc⟩
    · exact h
    · obtain ⟨-, hb, -, -, hx, hy, -⟩ := NPCFactory.create_ok hc
      unfold NPC.onMap
      rw [hx, hy]
      exact hb
  exact onMap_runCalls (calls.take k) (s := (n, gen)) h0

/-- Witness for C1: an Orc on the east edge, pushed outwards, moved at random, killed and moved
again. -/
theorem C1_position_stays_on_map_witness :
    NPC.onMap ⟨Kind.Orc, "A", 99, 0, true⟩ ∧
      (0 ≤ (runCalls ([Call.move 1 0, Call.move_random, Call.move (-5) 3, Call.kill,
          Call.move 1 1].take 5) (⟨Kind.Orc, "A", 99, 0, true⟩, ⟨fun _ => 1, 0⟩)).1.x ∧
        (runCalls ([Call.move 1 0, Call.move_random, Call.move (-5) 3, Call.kill,
          Call.move 1 1].take 5) (⟨Kind.Orc, "A", 99, 0, true⟩, ⟨fun _ => 1, 0⟩)).1.x < 100 ∧
        0 ≤ (runCalls ([Call.move 1 0, Call.move_random, Call.move (-5) 3, Call.kill,
          Call.move 1 1].take 5) (⟨Kind.Orc, "A", 99, 0, true⟩, ⟨fun _ => 1, 0⟩)).1.y ∧
        (runCalls ([Call.move 1 0, Call.move_random, Call.move (-5) 3, Call.kill,
          Call.move 1 1].take 5) (⟨Kind.Orc, "A", 99, 0, true⟩, ⟨fun _ => 1, 0⟩)).1.y < 100) :=
  ⟨by decide, C1_position_stays_on_map _ _ _ _ (Or.inl (by decide))⟩

/-- C7: `NPCFactory::create` fails if and only if the type name is none of "Orc", "Bear",
"Squirrel" or the position is outside `[0,100) x [0,100)`; otherwise it returns an alive entity
with exactly the given type, name and position. `create("Bear", "Grizzly", 200, 5)` fails. -/
theorem C7_create_validation (type name : String) (x y : Int) :
    ((∃ msg, NPCFactory.create type name x y = Except.error msg) ↔
        (¬ (type = "Orc" ∨ type = "Bear" ∨ type = "Squirrel") ∨
          ¬ (0 ≤ x ∧ x < 100 ∧ 0 ≤ y ∧ y < 100))) ∧
      ((type = "Orc" ∨ type = "Bear" ∨ type = "Squirrel") →
        (0 ≤ x ∧ x < 100 ∧ 0 ≤ y ∧ y < 100) →
        ∃ n, NPCFactory.create type name x y = Except.ok n ∧ n.alive = true ∧
          n.type = type ∧ n.name = name ∧ n.x = x ∧ n.y = y) ∧
      (∃ msg, NPCFactory.create "Bear" "Grizzly" 200 5 = Except.error msg) := by
  have key : ∀ r : Except String NPC, NPCFactory.create type name x y = r →
      ((∃ msg, r = Except.error msg) ↔
        (¬ (type = "Orc" ∨ type = "Bear" ∨ type = "Squirrel") ∨
          ¬ (0 ≤ x ∧ x < 100 ∧ 0 ≤ y ∧ y < 100))) := by
    intro r hr
    cases r with
    | ok n =>
      obtain ⟨ht, hb, -⟩ := NPCFactory.create_ok hr
      constructor
      · rintro ⟨msg, hm⟩
        cases hm
      · rintro (h | h)
        · exact absurd ht h
        · exact absurd hb h
    | error msg =>
      constructor
      · intro _
        by_contra hcon
        obtain ⟨h1, h2⟩ := not_or.1 hcon
        have ht := not_not.1 h1
        have hb := not_not.1 h2
        have hb2 : ¬ (x < 0 ∨ x ≥ MAP_WIDTH ∨ y < 0 ∨ y ≥ MAP_HEIGHT) := by
          simp only [MAP_WIDTH, MAP_HEIGHT]
          omega
        unfold NPCFactory.create at hr
        rw [if_neg hb2] at hr
        rcases ht with ht | ht | ht <;> subst ht <;> simp at hr
      · intro _
        exact ⟨msg, rfl⟩
  refine ⟨key _ rfl, ?_, ?_⟩
  · intro ht hb
    cases hr : NPCFactory.create type name x y with
    | ok n =>
      obtain ⟨-, -, h1, h2, h3, h4, h5⟩ := NPCFactory.create_ok hr
      exact ⟨n, rfl, h5, h1, h2, h3, h4⟩
    | error msg =>
      have := (key _ hr).1 ⟨msg, rfl⟩
      rcases this with h | h
      · exact absurd ht h
      · exact absurd hb h
  · exact ⟨_, rfl⟩

/-- C8: `kill` is idempotent: it leaves `alive = false`, leaves kind, name and position
unchanged, and any number of further calls gives the same state as one call; the method is
total, it has no failing path. -/
theorem C8_kill_idempotent (n : NPC) :
    n.kill.alive = false ∧ n.kill.name = n.name ∧ n.kill.x = n.x ∧ n.kill.y = n.y ∧
      n.kill.kind = n.kind ∧ n.kill.kill = n.kill ∧
      ∀ k : Nat, NPC.kill^[k + 1] n = n.kill := by
  refine ⟨rfl, rfl, rfl, rfl, rfl, rfl, ?_⟩
  intro k
  induction k with
  | zero => rfl
  | succ k ih =>
    rw [Function.iterate_succ_apply', ih]
    rfl

/-! ## Combat visitor theorems -/

theorem legalPair_iff (a d : Kind) :
    legalPair a d = true ↔
      (a = Kind.Orc ∧ d = Kind.Orc) ∨ (a = Kind.Orc ∧ d = Kind.Bear) ∨
        (a = Kind.Bear ∧ d = Kind.Orc) := by
  cases a <;> cases d <;> simp [legalPair]

theorem BattleVisitor.roll_dice_battle_eq (gen : Gen) :
    BattleVisitor.roll_dice_battle gen =
      (decide (gen.draws gen.pos > gen.draws (gen.pos + 1)), ⟨gen.draws, gen.pos + 2⟩) := rfl

/-- Closed form of one `accept` call: a roll happens exactly for an alive visited object and a
legal kind pair, and it is won exactly when the first draw exceeds the second. -/
theorem BattleVisitor.accept_eq (attacker npc : NPC) (observers : List Observer) (gen : Gen) :
    BattleVisitor.accept attacker observers gen npc =
      if npc.alive = true ∧ legalPair attacker.kind npc.kind = true then
        if gen.draws gen.pos > gen.draws (gen.pos + 1) then
          ⟨npc.kill, ⟨gen.draws, gen.pos + 2⟩,
            observers.map fun obs => ⟨obs, attacker.name, npc.name⟩⟩
        else ⟨npc, ⟨gen.draws, gen.pos + 2⟩, []⟩
      else ⟨npc, gen, []⟩ := by
  obtain ⟨ak, an, ax, ay, aa⟩ := attacker
  obtain ⟨nk, nn, nx, ny, na⟩ := npc
  cases ak <;> cases nk <;> cases na <;>
    simp [BattleVisitor.accept, BattleVisitor.visitOrc, BattleVisitor.visitBear,
      BattleVisitor.visitSquirrel, BattleVisitor.roll_dice_battle_eq, BattleVisitor.notify,
      NPC.type, NPC.is_alive, NPC.kill, NPC.get_name, legalPair]

/-- C2: the kind pairs (attacker, visited object) on which `accept` can act are exactly
Orc→Orc, Orc→Bear and Bear→Orc. For each of these three pairs and an alive visited object some
dice outcome with both rolls in `[1,6]` kills it; for each of the other six pairs no dice
outcome changes the visited object (its alive flag included), takes a draw, or invokes any
observer. -/
theorem C2_combat_legality (attacker npc : NPC) (observers : List Observer) :
    (((attacker.kind = Kind.Orc ∧ npc.kind = Kind.Orc) ∨
        (attacker.kind = Kind.Orc ∧ npc.kind = Kind.Bear) ∨
        (attacker.kind = Kind.Bear ∧ npc.kind = Kind.Orc)) →
      npc.alive = true →
      ∃ gen : Gen, (∀ k, 1 ≤ gen.draws k ∧ gen.draws k ≤ 6) ∧
        (BattleVisitor.accept attacker observers gen npc).npc.alive = false) ∧
    (¬ ((attacker.kind = Kind.Orc ∧ npc.kind = Kind.Orc) ∨
        (attacker.kind = Kind.Orc ∧ npc.kind = Kind.Bear) ∨
        (attacker.kind = Kind.Bear ∧ npc.kind = Kind.Orc)) →
      ∀ gen : Gen,
        (BattleVisitor.accept attacker observers gen npc).npc = npc ∧
        (BattleVisitor.accept attacker observers gen npc).npc.alive = npc.alive ∧
        (BattleVisitor.accept attacker observers gen npc).events = [] ∧
        (BattleVisitor.accept attacker observers gen npc).gen.pos = gen.pos) := by
  constructor
  · intro hl ha
    refine ⟨⟨fun k => if k = 0 then 6 else 1, 0⟩, ?_, ?_⟩
    · intro k
      by_cases hk : k = 0 <;> simp [hk]
    · rw [BattleVisitor.accept_eq, if_pos ⟨ha, (legalPair_iff _ _).2 hl⟩]
      simp [NPC.kill]
  · intro hl gen
    have hl2 : ¬ legalPair attacker.kind npc.kind = true := fun h => hl ((legalPair_iff _ _).1 h)
    rw [BattleVisitor.accept_eq, if_neg (fun h => hl2 h.2)]
    exact ⟨rfl, rfl, rfl, rfl⟩

/-- C3: for a legal kind pair, an alive visited object and any two rolls (in particular any
two rolls in `[1,6]`), `accept` kills the visited object if and only if the attack roll is
strictly greater than the defense roll, and leaves it alive when the attack roll is at most
the defense roll. The attack roll is the first value taken from the generator (`draws pos`),
the defense roll is the second (`draws (pos + 1)`), and exactly these two values are taken. -/
theorem C3_dice_resolution (attacker npc : NPC) (observers : List Observer) (gen : Gen)
    (hlegal : (attacker.kind = Kind.Orc ∧ npc.kind = Kind.Orc) ∨
      (attacker.kind = Kind.Orc ∧ npc.kind = Kind.Bear) ∨
      (attacker.kind = Kind.Bear ∧ npc.kind = Kind.Orc))
    (halive : npc.alive = true) :
    ((BattleVisitor.accept attacker observers gen npc).npc.alive = false ↔
        gen.draws gen.pos > gen.draws (gen.pos + 1)) ∧
      (gen.draws gen.pos ≤ gen.draws (gen.pos + 1) →
        (BattleVisitor.accept attacker observers gen npc).npc.alive = true) ∧
      (BattleVisitor.roll_dice_battle gen).1 =
        decide (gen.draws gen.pos > gen.draws (gen.pos + 1)) ∧
      (BattleVisitor.accept attacker observers gen npc).gen.pos = gen.pos + 2 ∧
      (BattleVisitor.accept attacker observers gen npc).gen.draws = gen.draws := by
  rw [BattleVisitor.accept_eq, if_pos ⟨halive, (legalPair_iff _ _).2 hlegal⟩]
  by_cases hw : gen.draws gen.pos > gen.draws (gen.pos + 1)
  · rw [if_pos hw]
    refine ⟨⟨fun _ => hw, fun _ => rfl⟩, ?_, rfl, rfl, rfl⟩
    intro hle
    omega
  · rw [if_neg hw]
    refine ⟨⟨?_, fun h => absurd h hw⟩, fun _ => halive, rfl, rfl, rfl⟩
    intro h
    rw [halive] at h
    cases h

/-- C4: when an `accept` call kills the visited object (alive before, dead after), the
`on_kill` invocations it makes are exactly one per registered observer, in registration order,
each with (attacker name, victim name); when it does not kill (visited object already dead,
illegal kind pair, or attack roll not greater than defense roll) it makes no invocation. -/
theorem C4_kill_notification (attacker npc : NPC) (observers : List Observer) (gen : Gen) :
    ((npc.alive = true ∧ (BattleVisitor.accept attacker observers gen npc).npc.alive = false) →
        (BattleVisitor.accept attacker observers gen npc).events =
          observers.map fun obs => ⟨obs, attacker.name, npc.name⟩) ∧
      (¬ (npc.alive = true ∧ (BattleVisitor.accept attacker observers gen npc).npc.alive = false) →
        (BattleVisitor.accept attacker observers gen npc).events = []) ∧
      (npc.alive = false → (BattleVisitor.accept attacker observers gen npc).events = []) ∧
      (¬ ((attacker.kind = Kind.Orc ∧ npc.kind = Kind.Orc) ∨
          (attacker.kind = Kind.Orc ∧ npc.kind = Kind.Bear) ∨
          (attacker.kind = Kind.Bear ∧ npc.kind = Kind.Orc)) →
        (BattleVisitor.accept attacker observers gen npc).events = []) ∧
      (gen.draws gen.pos ≤ gen.draws (gen.pos + 1) →
        (BattleVisitor.accept attacker observers gen npc).events = []) := by
  rw [BattleVisitor.accept_eq]
  by_cases h1 : npc.alive = true ∧ legalPair attacker.kind npc.kind = true
  · rw [if_pos h1]
    by_cases hw : gen.draws gen.pos > gen.draws (gen.pos + 1)
    · rw [if_pos hw]
      refine ⟨fun _ => rfl, ?_, ?_, ?_, ?_⟩
      · intro h
        exact absurd ⟨h1.1, rfl⟩ h
      · intro h
        rw [h1.1] at h
        cases h
      · intro h
        exact absurd ((legalPair_iff _ _).1 h1.2) h
      · intro h
        omega
    · rw [if_neg hw]
      refine ⟨?_, fun _ => rfl, fun _ => rfl, fun _ => rfl, fun _ => rfl⟩
      rintro ⟨-, h⟩
      rw [h1.1] at h
      cases h
  · rw [if_neg h1]
    refine ⟨?_, fun _ => rfl, fun _ => rfl, fun _ => rfl, fun _ => rfl⟩
    rintro ⟨h, h2⟩
    rw [h] at h2
    cases h2

/-- Witness for C3: an Orc attacks an alive Bear with the rolls 6 and 1. -/
theorem C3_dice_resolution_witness :
    ((BattleVisitor.accept ⟨Kind.Orc, "A", 0, 0, true⟩ [Observer.ConsoleObserver]
          ⟨fun k => if k = 0 then 6 else 1, 0⟩ ⟨Kind.Bear, "B", 5, 0, true⟩).npc.alive = false ↔
        (6 : Int) > 1) ∧
      True :=
  ⟨(C3_dice_resolution ⟨Kind.Orc, "A", 0, 0, true⟩ ⟨Kind.Bear, "B", 5, 0, true⟩
      [Observer.ConsoleObserver] ⟨fun k => if k = 0 then 6 else 1, 0⟩
      (Or.inr (Or.inl ⟨rfl, rfl⟩)) rfl).1, trivial⟩

/-! ## Combat loop theorems -/

/-- C5: after one iteration body of the combat loop (pair loop, then sweep), whatever the
registry held before (dead entities included) and whatever the dice give, every entity of the
registry has `alive = true`. -/
theorem C5_no_dead_after_tick (observers : List Observer) (s : GameManager.BattleState) :
    ∀ n ∈ (GameManager.battle_tick observers s).npcs, n.alive = true := by
  intro n hn
  simp only [GameManager.battle_tick, GameManager.sweep, List.mem_filter] at hn
  exact hn.2

/-- Witness for C5: the tick on three Orcs sharing a cell leaves "B", and "B" is alive. -/
theorem C5_no_dead_after_tick_witness :
    (⟨Kind.Orc, "B", 0, 0, true⟩ : NPC) ∈
        (GameManager.battle_tick [Observer.ConsoleObserver] threeOrcs).npcs ∧
      (⟨Kind.Orc, "B", 0, 0, true⟩ : NPC).alive = true :=
  ⟨by decide,
    C5_no_dead_after_tick [Observer.ConsoleObserver] threeOrcs ⟨Kind.Orc, "B", 0, 0, true⟩
      (by decide)⟩

theorem GameManager.resolve_eq (observers : List Observer) (s : GameManager.BattleState)
    (p q : Nat) (a b : NPC) (hp : s.npcs[p]? = some a) (hq : s.npcs[q]? = some b) :
    GameManager.resolve observers p q s =
      ⟨s.npcs.set q (BattleVisitor.accept a observers s.gen b).npc,
        (BattleVisitor.accept a observers s.gen b).gen,
        s.log ++ (BattleVisitor.accept a observers s.gen b).events⟩ := by
  simp only [GameManager.resolve, hp, hq]

theorem GameManager.alive_at_eq (s : GameManager.BattleState) (p : Nat) (a : NPC)
    (hp : s.npcs[p]? = some a) : GameManager.alive_at s p = a.alive := by
  simp only [GameManager.alive_at, hp, NPC.is_alive]

theorem getElem?_set_other (l : List NPC) (p q : Nat) (a b : NPC) (hne : p ≠ q)
    (hp : l[p]? = some a) : (l.set q b)[p]? = some a := by
  rw [List.getElem?_set_ne (Ne.symm hne)]
  exact hp

theorem getElem?_set_same (l : List NPC) (q : Nat) (b c : NPC)
    (hq : l[q]? = some b) : (l.set q c)[q]? = some c := by
  rw [List.getElem?_set_self', hq]
  rfl

/-- Closed form of the inner-loop body on an alive `npcs[j]` in range of `npcs[i]`. -/
theorem GameManager.pair_body_eq (observers : List Observer) (s : GameManager.BattleState)
    (i j : Nat) (a b : NPC) (hij : i ≠ j)
    (hi : s.npcs[i]? = some a) (hj : s.npcs[j]? = some b)
    (hb : b.alive = true) (hrange : GameManager.in_range_at s i j = true) :
    GameManager.pair_body observers i j s =
      if a.alive = true ∧ (BattleVisitor.accept a observers s.gen b).npc.alive = true then
        ⟨(s.npcs.set j (BattleVisitor.accept a observers s.gen b).npc).set i
            (BattleVisitor.accept (BattleVisitor.accept a observers s.gen b).npc observers
              (BattleVisitor.accept a observers s.gen b).gen a).npc,
          (BattleVisitor.accept (BattleVisitor.accept a observers s.gen b).npc observers
              (BattleVisitor.accept a observers s.gen b).gen a).gen,
          (s.log ++ (BattleVisitor.accept a observers s.gen b).events) ++
            (BattleVisitor.accept (BattleVisitor.accept a observers s.gen b).npc observers
              (BattleVisitor.accept a observers s.gen b).gen a).events⟩
      else
        ⟨s.npcs.set j (BattleVisitor.accept a observers s.gen b).npc,
          (BattleVisitor.accept a observers s.gen b).gen,
          s.log ++ (BattleVisitor.accept a observers s.gen b).events⟩ := by
  have haj : GameManager.alive_at s j = true := by
    rw [GameManager.alive_at_eq s j b hj, hb]
  have h1 := GameManager.resolve_eq observers s i j a b hi hj
  have hi1 : (GameManager.resolve observers i j s).npcs[i]? = some a := by
    rw [h1]
    exact getElem?_set_other _ _ _ _ _ hij hi
  have hj1 : (GameManager.resolve observers i j s).npcs[j]? =
      some (BattleVisitor.accept a observers s.gen b).npc := by
    rw [h1]
    exact getElem?_set_same _ _ _ _ hj
  have h2 := GameManager.resolve_eq observers _ j i _ _ hj1 hi1
  unfold GameManager.pair_body
  simp only [haj, hrange, Bool.not_true, Bool.false_eq_true, if_false, if_true,
    GameManager.alive_at_eq _ i a hi1, GameManager.alive_at_eq _ j _ hj1, Bool.and_eq_true]
  split
  · rw [h2, h1]
  · rw [h1]

/-- C10: for an in-range pair `i < j` with `npcs[j]` alive, the inner-loop body first resolves
`i` as attacker against `j`; the reverse resolution (`j` against `i`) is executed if and only
if both are alive after the first one, and it reads the generator where the first resolution
left it, so its two rolls are fresh. For two alive Orcs: when the first resolution kills `j`
(first roll greater than second), `i` stays alive and only two values are drawn; otherwise the
reverse resolution decides with the third and fourth values. -/
theorem C10_mutual_combat_order (observers : List Observer) (s : GameManager.BattleState)
    (i j : Nat) (a b : NPC) (hij : i < j)
    (hi : s.npcs[i]? = some a) (hj : s.npcs[j]? = some b)
    (hb : b.alive = true) (hrange : GameManager.in_range_at s i j = true) :
    (GameManager.pair_body observers i j s =
        if GameManager.alive_at (GameManager.resolve observers i j s) i = true ∧
            GameManager.alive_at (GameManager.resolve observers i j s) j = true then
          GameManager.resolve observers j i (GameManager.resolve observers i j s)
        else GameManager.resolve observers i j s) ∧
      (GameManager.resolve observers i j s =
        ⟨s.npcs.set j (BattleVisitor.accept a observers s.gen b).npc,
          (BattleVisitor.accept a observers s.gen b).gen,
          s.log ++ (BattleVisitor.accept a observers s.gen b).events⟩) ∧
      (GameManager.resolve observers j i (GameManager.resolve observers i j s) =
        ⟨(s.npcs.set j (BattleVisitor.accept a observers s.gen b).npc).set i
            (BattleVisitor.accept (BattleVisitor.accept a observers s.gen b).npc observers
              (BattleVisitor.accept a observers s.gen b).gen a).npc,
          (BattleVisitor.accept (BattleVisitor.accept a observers s.gen b).npc observers
              (BattleVisitor.accept a observers s.gen b).gen a).gen,
          (s.log ++ (BattleVisitor.accept a observers s.gen b).events) ++
            (BattleVisitor.accept (BattleVisitor.accept a observers s.gen b).npc observers
              (BattleVisitor.accept a observers s.gen b).gen a).events⟩) ∧
      ((BattleVisitor.accept a observers s.gen b).gen.draws = s.gen.draws ∧
        s.gen.pos ≤ (BattleVisitor.accept a observers s.gen b).gen.pos) ∧
      (a.kind = Kind.Orc → b.kind = Kind.Orc → a.alive = true →
        (s.gen.draws s.gen.pos > s.gen.draws (s.gen.pos + 1) →
          GameManager.alive_at (GameManager.pair_body observers i j s) i = true ∧
          GameManager.alive_at (GameManager.pair_body observers i j s) j = false ∧
          (GameManager.pair_body observers i j s).gen.pos = s.gen.pos + 2 ∧
          (GameManager.pair_body observers i j s).log =
            s.log ++ observers.map fun obs => ⟨obs, a.name, b.name⟩) ∧
        (s.gen.draws s.gen.pos ≤ s.gen.draws (s.gen.pos + 1) →
          GameManager.alive_at (GameManager.pair_body observers i j s) j = true ∧
          (GameManager.alive_at (GameManager.pair_body observers i j s) i = false ↔
            s.gen.draws (s.gen.pos + 2) > s.gen.draws (s.gen.pos + 3)) ∧
          (GameManager.pair_body observers i j s).gen.pos = s.gen.pos + 4 ∧
          (GameManager.pair_body observers i j s).log =
            s.log ++ if s.gen.draws (s.gen.pos + 2) > s.gen.draws (s.gen.pos + 3) then
              observers.map fun obs => ⟨obs, b.name, a.name⟩ else [])) := by
  have hne : i ≠ j := Nat.ne_of_lt hij
  have haj : GameManager.alive_at s j = true := by
    rw [GameManager.alive_at_eq s j b hj, hb]
  have h1 := GameManager.resolve_eq observers s i j a b hi hj
  have hi1 : (GameManager.resolve observers i j s).npcs[i]? = some a := by
    rw [h1]
    exact getElem?_set_other _ _ _ _ _ hne hi
  have hj1 : (GameManager.resolve observers i j s).npcs[j]? =
      some (BattleVisitor.accept a observers s.gen b).npc := by
    rw [h1]
    exact getElem?_set_same _ _ _ _ hj
  have h2 := GameManager.resolve_eq observers _ j i _ _ hj1 hi1
  refine ⟨?_, h1, ?_, ?_, ?_⟩
  · unfold GameManager.pair_body
    simp only [haj, hrange, Bool.not_true, Bool.false_eq_true, if_false, if_true,
      Bool.and_eq_true]
  · rw [h2, h1]
  · rw [BattleVisitor.accept_eq]
    split
    · split
      · exact ⟨rfl, Nat.le_add_right _ _⟩
      · exact ⟨rfl, Nat.le_add_right _ _⟩
    · exact ⟨rfl, Nat.le_refl _⟩
  · intro hka hkb haa
    rw [GameManager.pair_body_eq observers s i j a b hne hi hj hb hrange]
    constructor
    · intro hw
      have hacc : BattleVisitor.accept a observers s.gen b =
          ⟨b.kill, ⟨s.gen.draws, s.gen.pos + 2⟩,
            observers.map fun obs => ⟨obs, a.name, b.name⟩⟩ := by
        rw [BattleVisitor.accept_eq, if_pos ⟨hb, by rw [hka, hkb]; rfl⟩, if_pos hw]
      rw [hacc]
      have hdead : ¬ (a.alive = true ∧ b.kill.alive = true) := by
        rintro ⟨-, h⟩
        cases h
      rw [if_neg hdead]
      refine ⟨?_, ?_, rfl, rfl⟩
      · rw [GameManager.alive_at_eq _ i a (getElem?_set_other _ _ _ _ _ hne hi), haa]
      · rw [GameManager.alive_at_eq _ j b.kill (getElem?_set_same _ _ _ _ hj)]
        rfl
    · intro hw
      have hnw : ¬ s.gen.draws s.gen.pos > s.gen.draws (s.gen.pos + 1) := by omega
      have hacc : BattleVisitor.accept a observers s.gen b =
          ⟨b, ⟨s.gen.draws, s.gen.pos + 2⟩, []⟩ := by
        rw [BattleVisitor.accept_eq, if_pos ⟨hb, by rw [hka, hkb]; rfl⟩, if_neg hnw]
      rw [hacc]
      rw [if_pos ⟨haa, hb⟩]
      have hset : (s.npcs.set j b)[i]? = some a := getElem?_set_other _ _ _ _ _ hne hi
      have hsetj : (s.npcs.set j b)[j]? = some b := getElem?_set_same _ _ _ _ hj
      rw [BattleVisitor.accept_eq,
        if_pos (show a.alive = true ∧ legalPair b.kind a.kind = true from
          ⟨haa, by rw [hka, hkb]; rfl⟩)]
      by_cases hw2 : s.gen.draws (s.gen.pos + 2) > s.gen.draws (s.gen.pos + 3)
      · rw [if_pos hw2, if_pos hw2]
        refine ⟨?_, ?_, rfl, ?_⟩
        · rw [GameManager.alive_at_eq _ j b (getElem?_set_other _ _ _ _ _ (Ne.symm hne) hsetj),
            hb]
        · rw [GameManager.alive_at_eq _ i a.kill (getElem?_set_same _ _ _ _ hset)]
          exact ⟨fun _ => hw2, fun _ => rfl⟩
        · simp
      · rw [if_neg hw2, if_neg hw2]
        refine ⟨?_, ?_, rfl, ?_⟩
        · rw [GameManager.alive_at_eq _ j b (getElem?_set_other _ _ _ _ _ (Ne.symm hne) hsetj),
            hb]
        · rw [GameManager.alive_at_eq _ i a (getElem?_set_same _ _ _ _ hset), haa]
          exact ⟨fun h => (by cases h), fun h => absurd h hw2⟩
        · simp

/-- Witness for C10: Orc "A" at (0,0) and Orc "B" at (5,0), first rolls 6 and 1. -/
theorem C10_mutual_combat_order_witness :
    GameManager.in_range_at twoOrcs 0 1 = true ∧
      GameManager.pair_body [Observer.ConsoleObserver] 0 1 twoOrcs =
        if GameManager.alive_at (GameManager.resolve [Observer.ConsoleObserver] 0 1 twoOrcs) 0
              = true ∧
            GameManager.alive_at (GameManager.resolve [Observer.ConsoleObserver] 0 1 twoOrcs) 1
              = true then
          GameManager.resolve [Observer.ConsoleObserver] 1 0
            (GameManager.resolve [Observer.ConsoleObserver] 0 1 twoOrcs)
        else GameManager.resolve [Observer.ConsoleObserver] 0 1 twoOrcs :=
  ⟨by decide,
    (C10_mutual_combat_order [Observer.ConsoleObserver] twoOrcs 0 1
      ⟨Kind.Orc, "A", 0, 0, true⟩ ⟨Kind.Orc, "B", 5, 0, true⟩ (by decide) rfl rfl rfl
      (by decide)).1⟩

/-- C9, the code run on three Orcs "A", "B", "C" sharing one cell with the rolls 1, 6, 6, 1,
6, 1: in the encounter (0,1) "A" misses "B" and "B" kills "A"; the inner loop goes on to the
pair (0,2), where the dead "A" is the attacker and kills "C"; the observer is told
("B","A") and then ("A","C"), and only "B" is left after the sweep. -/
theorem C9_dead_attacker_kills :
    GameManager.alive_at threeOrcs 0 = true ∧
      GameManager.alive_at (GameManager.pair_body [Observer.ConsoleObserver] 0 1 threeOrcs) 0
        = false ∧
      (GameManager.pair_body [Observer.ConsoleObserver] 0 1 threeOrcs).log =
        [⟨Observer.ConsoleObserver, "B", "A"⟩] ∧
      (GameManager.pair_body [Observer.ConsoleObserver] 0 2
          (GameManager.pair_body [Observer.ConsoleObserver] 0 1 threeOrcs)).log =
        [⟨Observer.ConsoleObserver, "B", "A"⟩, ⟨Observer.ConsoleObserver, "A", "C"⟩] ∧
      (GameManager.battle_tick [Observer.ConsoleObserver] threeOrcs).log =
        [⟨Observer.ConsoleObserver, "B", "A"⟩, ⟨Observer.ConsoleObserver, "A", "C"⟩] ∧
      (GameManager.battle_tick [Observer.ConsoleObserver] threeOrcs).npcs =
        [⟨Kind.Orc, "B", 0, 0, true⟩] := by
  decide


/-! ## Roster file theorems -/

theorem takeWhile_dropWhile_append_stop (p : Char → Bool) (l : List Char) (d : Char)
    (r : List Char) (hl : ∀ c ∈ l, p c = true) (hd : p d = false) :
    (l ++ d :: r).takeWhile p = l ∧ (l ++ d :: r).dropWhile p = d :: r := by
  induction l with
  | nil => simp [List.takeWhile_cons, List.dropWhile_cons, hd]
  | cons c l ih =>
    have hc : p c = true := hl c (List.mem_cons_self _ _)
    have ih2 := ih (fun c hc => hl c (List.mem_cons_of_mem _ hc))
    simp [List.takeWhile_cons, List.dropWhile_cons, hc, ih2.1, ih2.2]

theorem isDigit_digitChar (d : Nat) (h : d < 10) : (digitChar d).isDigit = true := by
  interval_cases d <;> decide

theorem toNat_digitChar (d : Nat) (h : d < 10) : (digitChar d).toNat - 48 = d := by
  interval_cases d <;> decide

theorem isspace_of_isDigit (c : Char) (h : c.isDigit = true) :
    isspace c = false ∧ c ≠ '-' ∧ c ≠ '+' := by
  refine ⟨?_, ?_, ?_⟩
  · cases hs : isspace c with
    | false => rfl
    | true =>
      simp only [isspace, Bool.or_eq_true, decide_eq_true_eq] at hs
      rcases hs with ((((hs | hs) | hs) | hs) | hs) | hs <;> subst hs <;> revert h <;> decide
  · rintro rfl
    revert h
    decide
  · rintro rfl
    revert h
    decide

theorem natToChars_spec (fuel : Nat) : ∀ n : Nat, n < fuel →
    (∀ c ∈ natToChars fuel n, c.isDigit = true) ∧ natToChars fuel n ≠ [] ∧
      (natToChars fuel n).foldl (fun acc c => acc * 10 + (c.toNat - 48)) 0 = n := by
  induction fuel with
  | zero => intro n h; omega
  | succ fuel ih =>
    intro n hn
    unfold natToChars
    by_cases h10 : n < 10
    · rw [if_pos h10]
      refine ⟨?_, by simp, ?_⟩
      · intro c hc
        rw [List.mem_singleton] at hc
        rw [hc]
        exact isDigit_digitChar n h10
      · simp [toNat_digitChar n h10]
    · rw [if_neg h10]
      have hlt : n / 10 < fuel := by omega
      obtain ⟨h1, h2, h3⟩ := ih (n / 10) hlt
      have hm : n % 10 < 10 := Nat.mod_lt _ (by decide)
      refine ⟨?_, by simp, ?_⟩
      · intro c hc
        rw [List.mem_append, List.mem_singleton] at hc
        rcases hc with hc | hc
        · exact h1 c hc
        · rw [hc]
          exact isDigit_digitChar _ hm
      · rw [List.foldl_append, h3]
        simp only [List.foldl_cons, List.foldl_nil, toNat_digitChar _ hm]
        omega

/-- A token between whitespace is read back whole by `in >> s`. -/
theorem read_string_token (pre tok : List Char) (sp : Char) (r : List Char)
    (hpre : ∀ c ∈ pre, isspace c = true) (hne : tok ≠ [])
    (htok : ∀ c ∈ tok, isspace c = false) (hsp : isspace sp = true) :
    read_string (pre ++ (tok ++ sp :: r)) = some (String.mk tok, sp :: r) := by
  obtain ⟨d, tl, rfl⟩ := List.exists_cons_of_ne_nil hne
  have hd : isspace d = false := htok d (List.mem_cons_self _ _)
  have h1 : (pre ++ ((d :: tl) ++ sp :: r)).dropWhile isspace = (d :: tl) ++ sp :: r := by
    have := (takeWhile_dropWhile_append_stop isspace pre d (tl ++ sp :: r) hpre hd).2
    simpa using this
  have h2 := takeWhile_dropWhile_append_stop (fun c => !isspace c) (d :: tl) sp r
    (fun c hc => by simp [htok c hc]) (by simp [hsp])
  unfold read_string
  simp only [h1, h2.1, h2.2]
  simp

/-- A non-negative `int` written by `out << v` between whitespace and a non-digit is read back
by `in >> v`. -/
theorem read_int_written (pre : List Char) (v : Int) (sp : Char) (r : List Char)
    (hpre : ∀ c ∈ pre, isspace c = true) (hv0 : 0 ≤ v) (hv1 : v ≤ 2147483647)
    (hsp : sp.isDigit = false) :
    read_int (pre ++ (intToChars v ++ sp :: r)) = some (v, sp :: r) := by
  have hnot : ¬ v < 0 := by omega
  obtain ⟨hdig, hne, hval⟩ := natToChars_spec (v.toNat + 1) v.toNat (Nat.lt_succ_self _)
  have hI : intToChars v = natToChars (v.toNat + 1) v.toNat := by
    unfold intToChars
    rw [if_neg hnot]
  rw [hI]
  obtain ⟨d, tl, htok⟩ := List.exists_cons_of_ne_nil hne
  rw [htok] at hdig hval ⊢
  have hd := isspace_of_isDigit d (hdig d (List.mem_cons_self _ _))
  have h1 : (pre ++ ((d :: tl) ++ sp :: r)).dropWhile isspace = (d :: tl) ++ sp :: r := by
    have := (takeWhile_dropWhile_append_stop isspace pre d (tl ++ sp :: r) hpre hd.1).2
    simpa using this
  have h2 := takeWhile_dropWhile_append_stop Char.isDigit (d :: tl) sp r hdig hsp
  have hhead : ((d :: tl) ++ sp :: r).head? = some d := rfl
  have hsign : ¬ (some d = some '-' ∨ some d = some '+') := by
    rintro (h | h)
    · exact hd.2.1 (Option.some.inj h)
    · exact hd.2.2 (Option.some.inj h)
  have hminus : ¬ (some d = some '-') := fun h => hsign (Or.inl h)
  have hvv : ((v.toNat : Nat) : Int) = v := Int.toNat_of_nonneg hv0
  unfold read_int
  simp only [h1, hhead, if_neg hsign, if_neg hminus, h2.1, h2.2, hval, hvv]
  have hrange : ¬ (v < -2147483648 ∨ v > 2147483647) := by omega
  rw [if_neg hrange]
  simp

/-- The factory rebuilds an alive on-map entity from its own type name, name and position. -/
theorem NPCFactory.create_self (n : NPC) (ha : n.alive = true) (hm : n.onMap) :
    NPCFactory.create n.type n.name n.x n.y = Except.ok n := by
  obtain ⟨k, nm, x, y, a⟩ := n
  obtain ⟨h1, h2, h3, h4⟩ := hm
  simp only [MAP_WIDTH, MAP_HEIGHT] at h2 h4
  simp only at ha h1 h2 h3 h4
  subst ha
  have hb : ¬ (x < 0 ∨ x ≥ MAP_WIDTH ∨ y < 0 ∨ y ≥ MAP_HEIGHT) := by
    simp only [MAP_WIDTH, MAP_HEIGHT]
    omega
  unfold NPCFactory.create
  rw [if_neg hb]
  cases k <;> simp [NPC.type]

theorem read_string_blank (pre : List Char) (hpre : ∀ c ∈ pre, isspace c = true) :
    read_string pre = none := by
  have h : pre.dropWhile isspace = [] := by
    induction pre with
    | nil => rfl
    | cons c pre ih =>
      rw [List.dropWhile_cons, if_pos (hpre c (List.mem_cons_self _ _))]
      exact ih (fun c hc => hpre c (List.mem_cons_of_mem _ hc))
  unfold read_string
  simp [h]

theorem NPC.type_token (n : NPC) : n.type.data ≠ [] ∧ ∀ c ∈ n.type.data, isspace c = false := by
  obtain ⟨k, nm, x, y, a⟩ := n
  cases k
  · show "Orc".data ≠ [] ∧ ∀ c ∈ "Orc".data, isspace c = false
    exact ⟨by decide, by decide⟩
  · show "Bear".data ≠ [] ∧ ∀ c ∈ "Bear".data, isspace c = false
    exact ⟨by decide, by decide⟩
  · show "Squirrel".data ≠ [] ∧ ∀ c ∈ "Squirrel".data, isspace c = false
    exact ⟨by decide, by decide⟩

/-- Reading back what `save_to_file` wrote, with any fuel above the length of the content:
every alive entity is rebuilt, in order. -/
theorem load_loop_saved (l : List NPC)
    (hvalid : ∀ n ∈ l, n.alive = true →
      n.name.data ≠ [] ∧ (∀ c ∈ n.name.data, isspace c = false) ∧ n.onMap) :
    ∀ (fuel : Nat), (save_to_file l).length < fuel → ∀ (pre : List Char) (acc : List NPC),
      (∀ c ∈ pre, isspace c = true) →
      load_loop fuel (pre ++ save_to_file l) acc =
        Except.ok (acc ++ l.filter fun n => n.is_alive) := by
  induction l with
  | nil =>
    intro fuel _ pre acc hpre
    cases fuel with
    | zero => simp [load_loop]
    | succ fuel =>
      simp only [save_to_file, List.append_nil, List.filter_nil]
      unfold load_loop
      rw [read_string_blank pre hpre]
  | cons n l ih =>
    intro fuel hfuel pre acc hpre
    have ihl := ih (fun m hm => hvalid m (List.mem_cons_of_mem _ hm))
    cases ha : n.alive with
    | false =>
      have hs : save_to_file (n :: l) = save_to_file l := by
        simp [save_to_file, NPC.is_alive, ha]
      rw [hs] at hfuel ⊢
      rw [ihl fuel hfuel pre acc hpre]
      simp [List.filter_cons, NPC.is_alive, ha]
    | true =>
      obtain ⟨hn1, hn2, hn3⟩ := hvalid n (List.mem_cons_self _ _) ha
      have hs : save_to_file (n :: l) =
          n.type.data ++ ' ' :: (n.name.data ++ ' ' :: (intToChars n.x ++ ' ' ::
            (intToChars n.y ++ '\n' :: save_to_file l))) := by
        simp [save_to_file, save_line, NPC.is_alive, NPC.get_name, NPC.get_x, NPC.get_y, ha]
      rw [hs] at hfuel ⊢
      cases fuel with
      | zero => omega
      | succ fuel =>
        have hfuel2 : (save_to_file l).length < fuel := by
          simp only [List.length_append, List.length_cons] at hfuel
          omega
        have hsp : isspace ' ' = true := by decide
        have hone : ∀ c ∈ [' '], isspace c = true := by decide
        have hnl : ∀ c ∈ ['\n'], isspace c = true := by decide
        have r1 := read_string_token pre n.type.data ' '
          (n.name.data ++ ' ' :: (intToChars n.x ++ ' ' ::
            (intToChars n.y ++ '\n' :: save_to_file l)))
          hpre n.type_token.1 n.type_token.2 hsp
        have r2 := read_string_token [' '] n.name.data ' '
          (intToChars n.x ++ ' ' :: (intToChars n.y ++ '\n' :: save_to_file l))
          hone hn1 hn2 hsp
        have r3 := read_int_written [' '] n.x ' '
          (intToChars n.y ++ '\n' :: save_to_file l) hone hn3.1
          (by have := hn3.2.1; simp only [MAP_WIDTH] at this; omega) (by decide)
        have r4 := read_int_written [' '] n.y '\n' (save_to_file l) hone hn3.2.2.1
          (by have := hn3.2.2.2; simp only [MAP_HEIGHT] at this; omega) (by decide)
        simp only [List.singleton_append] at r2 r3 r4
        unfold load_loop
        simp only [r1, r2, r3, r4]
        have hc : NPCFactory.create (String.mk n.type.data) (String.mk n.name.data) n.x n.y =
            Except.ok n := NPCFactory.create_self n ha hn3
        simp only [hc]
        have := ihl fuel hfuel2 ['\n'] (acc ++ [n]) hnl
        simp only [List.singleton_append] at this
        rw [this]
        simp [List.filter_cons, NPC.is_alive, ha]

/-- C6 (amended): for every list of entities in which each alive entity is on the map and has
a non-empty name without whitespace characters, `load_from_file` applied to what
`save_to_file` wrote returns exactly the alive entities of the saved list, in their order, with
any fuel above the content length; hence the set of (kind, name, x, y) tuples of the loaded
list equals that of the alive entities of the saved list. -/
theorem C6_roundtrip_token_names (l : List NPC)
    (hvalid : ∀ n ∈ l, n.alive = true →
      n.name.data ≠ [] ∧ (∀ c ∈ n.name.data, isspace c = false) ∧ n.onMap) :
    load_from_file (save_to_file l) = Except.ok (l.filter fun n => n.is_alive) ∧
      (∀ fuel, (save_to_file l).length < fuel →
        load_loop fuel (save_to_file l) [] = Except.ok (l.filter fun n => n.is_alive)) ∧
      (∀ loaded, load_from_file (save_to_file l) = Except.ok loaded →
        ∀ t, t ∈ loaded.map NPC.tuple ↔ t ∈ (l.filter fun n => n.is_alive).map NPC.tuple) := by
  have key : ∀ fuel, (save_to_file l).length < fuel →
      load_loop fuel (save_to_file l) [] = Except.ok (l.filter fun n => n.is_alive) := by
    intro fuel hfuel
    have := load_loop_saved l hvalid fuel hfuel [] [] (fun c hc => by cases hc)
    simpa using this
  have hload : load_from_file (save_to_file l) = Except.ok (l.filter fun n => n.is_alive) :=
    key _ (Nat.lt_succ_self _)
  refine ⟨hload, key, ?_⟩
  intro loaded hl t
  rw [hload] at hl
  cases hl
  exact Iff.rfl

/-- Witness for C6: an alive Orc, a dead Orc and an alive Squirrel. -/
theorem C6_roundtrip_token_names_witness :
    load_from_file (save_to_file [⟨Kind.Orc, "Big", 10, 99, true⟩,
        ⟨Kind.Orc, "Dead", 10, 99, false⟩, ⟨Kind.Squirrel, "x", 0, 7, true⟩]) =
      Except.ok [⟨Kind.Orc, "Big", 10, 99, true⟩, ⟨Kind.Squirrel, "x", 0, 7, true⟩] :=
  (C6_roundtrip_token_names [⟨Kind.Orc, "Big", 10, 99, true⟩,
      ⟨Kind.Orc, "Dead", 10, 99, false⟩, ⟨Kind.Squirrel, "x", 0, 7, true⟩] (by decide)).1

/-- C6 as stated fails on an alive Orc named "Big Orc" at (0,0): the line written is
`Orc Big Orc 0 0`, the loader reads type "Orc", name "Big", cannot read an `int` from "Orc" and
stops with an empty list, so the loaded tuples are not those of the saved alive entity. The
same loss happens for an empty name (the loader takes the `x` field for the name), and an
entity placed off the map makes the loader end with the factory's exception. -/
theorem C6_whitespace_name_lost :
    String.mk (save_to_file [bigOrc]) = "Orc Big Orc 0 0\n" ∧
      load_from_file (save_to_file [bigOrc]) = Except.ok [] ∧
      ¬ (∃ loaded, load_from_file (save_to_file [bigOrc]) = Except.ok loaded ∧
        ∀ t, t ∈ loaded.map NPC.tuple ↔
          t ∈ ([bigOrc].filter fun n => n.is_alive).map NPC.tuple) ∧
      load_from_file (save_to_file [⟨Kind.Orc, "", 5, 5, true⟩]) = Except.ok [] ∧
      load_from_file (save_to_file [⟨Kind.Bear, "Grizzly", 200, 5, true⟩]) =
        Except.error "Координаты вне диапазона карты" := by
  have hload : load_from_file (save_to_file [bigOrc]) = Except.ok [] := rfl
  refine ⟨by decide, hload, ?_, rfl, rfl⟩
  rintro ⟨loaded, hl, ht⟩
  rw [hload] at hl
  cases hl
  have := (ht bigOrc.tuple).2 (by decide)
  simp at this

/-! ## Range condition theorems -/

theorem wrapInt_eq (z : Int) (h1 : -2147483648 ≤ z) (h2 : z < 2147483648) : wrapInt z = z := by
  unfold wrapInt
  rw [Int.emod_eq_of_lt (by omega) (by omega)]
  omega

theorem NPC.inKillRange_symm {a b : NPC} (h : a.inKillRange b) : b.inKillRange a := by
  unfold NPC.inKillRange at h ⊢
  rw [min_comm]
  have e1 : (b.x - a.x) ^ 2 = (a.x - b.x) ^ 2 := by ring
  have e2 : (b.y - a.y) ^ 2 = (a.y - b.y) ^ 2 := by ring
  rw [e1, e2]
  exact h

theorem NPC.inKillRange_congr {a b a0 b0 : NPC} (h : a.inKillRange b)
    (hak : a.kind = a0.kind) (hax : a.x = a0.x) (hay : a.y = a0.y)
    (hbk : b.kind = b0.kind) (hbx : b.x = b0.x) (hby : b.y = b0.y) : a0.inKillRange b0 := by
  unfold NPC.inKillRange NPC.get_kill_distance at h ⊢
  rw [← hak, ← hax, ← hay, ← hbk, ← hbx, ← hby]
  exact h

theorem sq_lt_bound (z : Int) (h : z * z < 2147483648) : -46341 < z ∧ z < 46341 := by
  constructor
  · by_contra hc
    have : z ≤ -46341 := by omega
    nlinarith
  · by_contra hc
    have : 46341 ≤ z := by omega
    nlinarith

/-- When the squared distance fits an `int`, the arithmetic of `distance_to` does not wrap, and
the two comparisons of the combat loop are the range condition. -/
theorem NPC.within_both_iff (a b : NPC)
    (hfit : (a.x - b.x) ^ 2 + (a.y - b.y) ^ 2 < 2147483648) :
    (a.within b.x b.y a.get_kill_distance && a.within b.x b.y b.get_kill_distance) = true ↔
      a.inKillRange b := by
  rw [pow_two, pow_two] at hfit
  have hxx1 : 0 ≤ (a.x - b.x) * (a.x - b.x) := mul_self_nonneg _
  have hyy1 : 0 ≤ (a.y - b.y) * (a.y - b.y) := mul_self_nonneg _
  have hxx2 : (a.x - b.x) * (a.x - b.x) < 2147483648 := by omega
  have hyy2 : (a.y - b.y) * (a.y - b.y) < 2147483648 := by omega
  obtain ⟨hx1, hx2⟩ := sq_lt_bound _ hxx2
  obtain ⟨hy1, hy2⟩ := sq_lt_bound _ hyy2
  have hd : a.distance_sq b.x b.y =
      (a.x - b.x) * (a.x - b.x) + (a.y - b.y) * (a.y - b.y) := by
    unfold NPC.distance_sq
    rw [wrapInt_eq (a.x - b.x) (by omega) (by omega),
      wrapInt_eq (a.y - b.y) (by omega) (by omega),
      wrapInt_eq ((a.x - b.x) * (a.x - b.x)) (by omega) (by omega),
      wrapInt_eq ((a.y - b.y) * (a.y - b.y)) (by omega) (by omega),
      wrapInt_eq _ (by omega) (by omega)]
  unfold NPC.within NPC.inKillRange
  rw [hd]
  simp only [Bool.and_eq_true, decide_eq_true_eq, pow_two]
  rcases le_total a.get_kill_distance b.get_kill_distance with hk | hk
  · rw [min_eq_left hk]
    have hka : 0 ≤ a.get_kill_distance := by
      unfold NPC.get_kill_distance
      cases a.kind <;> decide
    constructor
    · rintro ⟨⟨-, h⟩, -⟩
      exact h
    · intro h
      refine ⟨⟨by omega, h⟩, by omega, ?_⟩
      have : a.get_kill_distance * a.get_kill_distance ≤
          b.get_kill_distance * b.get_kill_distance := by nlinarith
      omega
  · rw [min_eq_right hk]
    have hkb : 0 ≤ b.get_kill_distance := by
      unfold NPC.get_kill_distance
      cases b.kind <;> decide
    constructor
    · rintro ⟨-, -, h⟩
      exact h
    · intro h
      refine ⟨⟨by omega, ?_⟩, by omega, h⟩
      have : b.get_kill_distance * b.get_kill_distance ≤
          a.get_kill_distance * a.get_kill_distance := by nlinarith
      omega

/-- Two positions on the map have a squared distance that fits an `int`. -/
theorem NPC.fits_of_onMap (a b : NPC) (ha : a.onMap) (hb : b.onMap) :
    (a.x - b.x) ^ 2 + (a.y - b.y) ^ 2 < 2147483648 := by
  obtain ⟨ha1, ha2, ha3, ha4⟩ := ha
  obtain ⟨hb1, hb2, hb3, hb4⟩ := hb
  simp only [MAP_WIDTH, MAP_HEIGHT] at ha2 ha4 hb2 hb4
  have hx1 : -99 ≤ a.x - b.x := by omega
  have hx2 : a.x - b.x ≤ 99 := by omega
  have hy1 : -99 ≤ a.y - b.y := by omega
  have hy2 : a.y - b.y ≤ 99 := by omega
  nlinarith

/-- What one `accept` call can change: nothing but the alive flag of the visited object, and
only from alive to dead; its `on_kill` invocations are none, or one per observer for a kill. -/
theorem BattleVisitor.accept_frame (attacker npc : NPC) (observers : List Observer) (gen : Gen) :
    (BattleVisitor.accept attacker observers gen npc).npc.kind = npc.kind ∧
      (BattleVisitor.accept attacker observers gen npc).npc.name = npc.name ∧
      (BattleVisitor.accept attacker observers gen npc).npc.x = npc.x ∧
      (BattleVisitor.accept attacker observers gen npc).npc.y = npc.y ∧
      (npc.alive = false → (BattleVisitor.accept attacker observers gen npc).npc.alive = false) ∧
      ((BattleVisitor.accept attacker observers gen npc).events = [] ∨
        (npc.alive = true ∧ (BattleVisitor.accept attacker observers gen npc).npc.alive = false ∧
          (BattleVisitor.accept attacker observers gen npc).events =
            observers.map fun obs => ⟨obs, attacker.name, npc.name⟩)) := by
  rw [BattleVisitor.accept_eq]
  split
  · rename_i h
    split
    · exact ⟨rfl, rfl, rfl, rfl, fun _ => rfl, Or.inr ⟨h.1, rfl, rfl⟩⟩
    · exact ⟨rfl, rfl, rfl, rfl, fun h => h, Or.inl rfl⟩
  · exact ⟨rfl, rfl, rfl, rfl, fun h => h, Or.inl rfl⟩

theorem GameManager.alive_at_none (s : GameManager.BattleState) (p : Nat)
    (hp : s.npcs[p]? = none) : GameManager.alive_at s p = false := by
  simp only [GameManager.alive_at, hp]

theorem GameManager.TickInv.refl (s : GameManager.BattleState) : GameManager.TickInv s s := by
  refine ⟨rfl, ?_, ?_, ⟨[], by simp, ?_⟩⟩
  · intro k n hn
    exact ⟨n, hn, rfl, rfl, rfl, rfl, fun h => h⟩
  · intro d b hd hb hdead
    rw [GameManager.alive_at_eq s d b hd, hb] at hdead
    cases hdead
  · intro e he
    cases he

/-- A slot dead in the earlier state is dead in the later one. -/
theorem GameManager.TickInv.dead_mono {s0 s : GameManager.BattleState}
    (h : GameManager.TickInv s0 s) (d : Nat) (hd : GameManager.alive_at s0 d = false) :
    GameManager.alive_at s d = false := by
  cases hs : s.npcs[d]? with
  | none => exact GameManager.alive_at_none s d hs
  | some n =>
    obtain ⟨n0, hn0, -, -, -, -, hmono⟩ := h.2.1 d n hs
    rw [GameManager.alive_at_eq s0 d n0 hn0] at hd
    rw [GameManager.alive_at_eq s d n hs]
    exact hmono hd

/-- A slot of the earlier state is still a slot of the later one. -/
theorem GameManager.TickInv.slot {s0 s : GameManager.BattleState}
    (h : GameManager.TickInv s0 s) (d : Nat) (b0 : NPC) (hd : s0.npcs[d]? = some b0) :
    ∃ b : NPC, s.npcs[d]? = some b ∧ b.kind = b0.kind ∧ b.name = b0.name ∧ b.x = b0.x ∧
      b.y = b0.y ∧ (b0.alive = false → b.alive = false) := by
  have hlt : d < s0.npcs.length := by
    rcases Nat.lt_or_ge d s0.npcs.length with hlt | hge
    · exact hlt
    · rw [List.getElem?_eq_none hge] at hd
      cases hd
  have hlt2 : d < s.npcs.length := by
    rw [h.1]
    exact hlt
  refine ⟨s.npcs[d], List.getElem?_eq_getElem hlt2, ?_⟩
  obtain ⟨n0, hn0, h1, h2, h3, h4, h5⟩ := h.2.1 d _ (List.getElem?_eq_getElem hlt2)
  rw [hd] at hn0
  cases hn0
  exact ⟨h1, h2, h3, h4, h5⟩

theorem GameManager.TickInv.trans {s0 s s1 : GameManager.BattleState}
    (h : GameManager.TickInv s0 s) (h1 : GameManager.TickInv s s1) :
    GameManager.TickInv s0 s1 := by
  refine ⟨h1.1.trans h.1, ?_, ?_, ?_⟩
  · intro k n hn
    obtain ⟨m, hm, e1, e2, e3, e4, e5⟩ := h1.2.1 k n hn
    obtain ⟨n0, hn0, f1, f2, f3, f4, f5⟩ := h.2.1 k m hm
    exact ⟨n0, hn0, e1.trans f1, e2.trans f2, e3.trans f3, e4.trans f4, fun hh => e5 (f5 hh)⟩
  · intro d b0 hd hb0 hdead
    cases hmid : GameManager.alive_at s d with
    | false => exact h.2.2.1 d b0 hd hb0 hmid
    | true =>
      obtain ⟨b, hb, bk, -, bx, hby, -⟩ := h.slot d b0 hd
      have hbalive : b.alive = true := by
        rw [GameManager.alive_at_eq s d b hb] at hmid
        exact hmid
      obtain ⟨a, c, hne, hc, hr⟩ := h1.2.2.1 d b hb hbalive hdead
      obtain ⟨c0, hc0, ck, -, cx, cy, -⟩ := h.2.1 a c hc
      exact ⟨a, c0, hne, hc0, NPC.inKillRange_congr hr ck cx cy bk bx hby⟩
  · obtain ⟨new0, hl0, hw0⟩ := h.2.2.2
    obtain ⟨new1, hl1, hw1⟩ := h1.2.2.2
    refine ⟨new0 ++ new1, by rw [hl1, hl0, List.append_assoc], ?_⟩
    intro e he
    rcases List.mem_append.1 he with he | he
    · obtain ⟨a, d, c, b, hne, hc, hb, e1, e2, hal, hdead, hr⟩ := hw0 e he
      exact ⟨a, d, c, b, hne, hc, hb, e1, e2, hal, h1.dead_mono d hdead, hr⟩
    · obtain ⟨a, d, c, b, hne, hc, hb, e1, e2, hal, hdead, hr⟩ := hw1 e he
      obtain ⟨c0, hc0, ck, cn, cx, cy, -⟩ := h.2.1 a c hc
      obtain ⟨b0, hb0, bk, bn, bx, hby, bmono⟩ := h.2.1 d b hb
      have hb0alive : b0.alive = true := by
        cases hb0a : b0.alive with
        | true => rfl
        | false =>
          rw [bmono hb0a] at hal
          cases hal
      exact ⟨a, d, c0, b0, hne, hc0, hb0, e1.trans cn, e2.trans bn, hb0alive, hdead,
        NPC.inKillRange_congr hr ck cx cy bk bx hby⟩

/-- One `accept` of slot `q` by the visitor of slot `p`, the two slots within kill range. -/
theorem GameManager.resolve_step (observers : List Observer) (s : GameManager.BattleState)
    (p q : Nat) (a b : NPC) (hpq : p ≠ q) (hp : s.npcs[p]? = some a)
    (hq : s.npcs[q]? = some b) (hr : a.inKillRange b) :
    GameManager.TickInv s (GameManager.resolve observers p q s) := by
  rw [GameManager.resolve_eq observers s p q a b hp hq]
  obtain ⟨fk, fn, fx, fy, fmono, fev⟩ := BattleVisitor.accept_frame a b observers s.gen
  have hqlt : q < s.npcs.length := by
    rcases Nat.lt_or_ge q s.npcs.length with hlt | hge
    · exact hlt
    · rw [List.getElem?_eq_none hge] at hq
      cases hq
  refine ⟨by simp, ?_, ?_, ⟨_, rfl, ?_⟩⟩
  · intro k n hn
    simp only [List.getElem?_set] at hn
    by_cases hqk : q = k
    · rw [if_pos hqk, if_pos hqlt] at hn
      cases hn
      subst hqk
      exact ⟨b, hq, fk, fn, fx, fy, fmono⟩
    · rw [if_neg hqk] at hn
      exact ⟨n, hn, rfl, rfl, rfl, rfl, fun h => h⟩
  · intro d bd hd hbd hdead
    by_cases hqd : q = d
    · subst hqd
      rw [hq] at hd
      cases hd
      exact ⟨p, a, hpq, hp, hr⟩
    · have hslot : (s.npcs.set q (BattleVisitor.accept a observers s.gen b).npc)[d]? =
          some bd := by
        rw [List.getElem?_set_ne hqd]
        exact hd
      rw [GameManager.alive_at_eq _ d bd hslot, hbd] at hdead
      cases hdead
  · intro e he
    rcases fev with fev | ⟨hbalive, hdead, fev⟩
    · rw [fev] at he
      cases he
    · rw [fev] at he
      obtain ⟨o, -, rfl⟩ := List.mem_map.1 he
      refine ⟨p, q, a, b, hpq, hp, hq, rfl, rfl, hbalive, ?_, hr⟩
      rw [GameManager.alive_at_eq _ q _ (getElem?_set_same _ _ _ _ hq)]
      exact hdead

/-- The positions do not change, so squared distances that fit an `int` keep fitting. -/
theorem GameManager.TickInv.fits {s0 s : GameManager.BattleState}
    (h : GameManager.TickInv s0 s)
    (hfit : ∀ a ∈ s0.npcs, ∀ b ∈ s0.npcs, (a.x - b.x) ^ 2 + (a.y - b.y) ^ 2 < 2147483648) :
    ∀ a ∈ s.npcs, ∀ b ∈ s.npcs, (a.x - b.x) ^ 2 + (a.y - b.y) ^ 2 < 2147483648 := by
  intro a ha b hb
  obtain ⟨k, hk⟩ := List.mem_iff_getElem?.1 ha
  obtain ⟨l, hl⟩ := List.mem_iff_getElem?.1 hb
  obtain ⟨a0, ha0, -, -, hax, hay, -⟩ := h.2.1 k a hk
  obtain ⟨b0, hb0, -, -, hbx, hby, -⟩ := h.2.1 l b hl
  rw [hax, hay, hbx, hby]
  exact hfit a0 (List.mem_iff_getElem?.2 ⟨k, ha0⟩) b0 (List.mem_iff_getElem?.2 ⟨l, hb0⟩)

theorem GameManager.in_range_at_false (observers : List Observer) (i j : Nat)
    (s : GameManager.BattleState) (h : GameManager.in_range_at s i j = false) :
    GameManager.pair_body observers i j s = s := by
  unfold GameManager.pair_body
  split
  · rfl
  · rw [h]
    rfl


theorem GameManager.KillRel.start (s : GameManager.BattleState) :
    GameManager.KillRel s s [] := by
  refine ⟨GameManager.TickInv.refl s, ?_, ?_⟩
  · intro p hp
    cases hp
  · intro d b hd hb hdead
    rw [GameManager.alive_at_eq s d b hd, hb] at hdead
    cases hdead

theorem GameManager.KillRel.append {s0 s s1 : GameManager.BattleState}
    {ks ks1 : List (Nat × Nat)} (h : GameManager.KillRel s0 s ks)
    (h1 : GameManager.KillRel s s1 ks1) : GameManager.KillRel s0 s1 (ks ++ ks1) := by
  obtain ⟨hinv, hk, hd⟩ := h
  obtain ⟨hinv1, hk1, hd1⟩ := h1
  refine ⟨hinv.trans hinv1, ?_, ?_⟩
  · intro p hp
    rcases List.mem_append.1 hp with hp | hp
    · obtain ⟨hne, c, b, hc, hb, hal, hdead, hr⟩ := hk p hp
      exact ⟨hne, c, b, hc, hb, hal, hinv1.dead_mono p.2 hdead, hr⟩
    · obtain ⟨hne, c, b, hc, hb, hal, hdead, hr⟩ := hk1 p hp
      obtain ⟨c0, hc0, ck, -, cx, cy, -⟩ := hinv.2.1 p.1 c hc
      obtain ⟨b0, hb0, bk, -, bx, hby, bmono⟩ := hinv.2.1 p.2 b hb
      have hb0alive : b0.alive = true := by
        cases hb0a : b0.alive with
        | true => rfl
        | false =>
          rw [bmono hb0a] at hal
          cases hal
      exact ⟨hne, c0, b0, hc0, hb0, hb0alive, hdead,
        NPC.inKillRange_congr hr ck cx cy bk bx hby⟩
  · intro d b0 hb0 hal hdead
    cases hmid : GameManager.alive_at s d with
    | false =>
      obtain ⟨a, ha⟩ := hd d b0 hb0 hal hmid
      exact ⟨a, List.mem_append.2 (Or.inl ha)⟩
    | true =>
      obtain ⟨b, hb, -, -, -, -, -⟩ := hinv.slot d b0 hb0
      have hbalive : b.alive = true := by
        rw [GameManager.alive_at_eq s d b hb] at hmid
        exact hmid
      obtain ⟨a, ha⟩ := hd1 d b hb hbalive hdead
      exact ⟨a, List.mem_append.2 (Or.inr ha)⟩

/-- One `resolve` call within kill range keeps the relation, with its own record. -/
theorem GameManager.resolve_step_kills (observers : List Observer)
    (s : GameManager.BattleState) (p q : Nat) (a b : NPC) (hpq : p ≠ q)
    (hp : s.npcs[p]? = some a) (hq : s.npcs[q]? = some b) (hr : a.inKillRange b) :
    GameManager.KillRel s (GameManager.resolve observers p q s)
      (GameManager.resolve_kills observers p q s) := by
  refine ⟨GameManager.resolve_step observers s p q a b hpq hp hq hr, ?_, ?_⟩
  · intro k hk
    unfold GameManager.resolve_kills at hk
    split at hk
    · rename_i hcond
      rw [List.mem_singleton] at hk
      subst hk
      simp only [Bool.and_eq_true, Bool.not_eq_true', GameManager.alive_at_eq s q b hq]
        at hcond
      exact ⟨hpq, a, b, hp, hq, hcond.1, hcond.2, hr⟩
    · cases hk
  · intro d bd hd hbd hdead
    by_cases hqd : q = d
    · subst hqd
      refine ⟨p, ?_⟩
      unfold GameManager.resolve_kills
      have hcond : (GameManager.alive_at s q &&
          !GameManager.alive_at (GameManager.resolve observers p q s) q) = true := by
        rw [GameManager.alive_at_eq s q bd hd, hbd, hdead]
        rfl
      rw [if_pos hcond]
      exact List.mem_singleton.2 rfl
    · have hslot : (GameManager.resolve observers p q s).npcs[d]? = some bd := by
        rw [GameManager.resolve_eq observers s p q a b hp hq]
        show (s.npcs.set q _)[d]? = some bd
        rw [List.getElem?_set_ne hqd]
        exact hd
      rw [GameManager.alive_at_eq _ d bd hslot, hbd] at hdead
      cases hdead

/-- One turn of the inner-loop body keeps the relation, with its own record. -/
theorem GameManager.pair_body_step_kills (observers : List Observer)
    (s : GameManager.BattleState) (i j : Nat) (hij : i ≠ j)
    (hfit : ∀ a ∈ s.npcs, ∀ b ∈ s.npcs, (a.x - b.x) ^ 2 + (a.y - b.y) ^ 2 < 2147483648) :
    GameManager.KillRel s (GameManager.pair_body observers i j s)
      (GameManager.pair_body_kills observers i j s) := by
  cases haj : GameManager.alive_at s j with
  | false =>
    have h1 : GameManager.pair_body observers i j s = s := by
      unfold GameManager.pair_body
      rw [haj]
      rfl
    have h2 : GameManager.pair_body_kills observers i j s = [] := by
      unfold GameManager.pair_body_kills
      rw [haj]
      rfl
    rw [h1, h2]
    exact GameManager.KillRel.start s
  | true =>
    cases hr : GameManager.in_range_at s i j with
    | false =>
      have h2 : GameManager.pair_body_kills observers i j s = [] := by
        unfold GameManager.pair_body_kills
        rw [haj, hr]
        rfl
      rw [GameManager.in_range_at_false observers i j s hr, h2]
      exact GameManager.KillRel.start s
    | true =>
      cases hi : s.npcs[i]? with
      | none => simp [GameManager.in_range_at, hi] at hr
      | some a =>
        cases hj : s.npcs[j]? with
        | none => simp [GameManager.in_range_at, hi, hj] at hr
        | some b =>
          have ha : a ∈ s.npcs := List.mem_iff_getElem?.2 ⟨i, hi⟩
          have hb : b ∈ s.npcs := List.mem_iff_getElem?.2 ⟨j, hj⟩
          have hrange : a.inKillRange b := by
            apply (NPC.within_both_iff a b (hfit a ha b hb)).1
            simpa [GameManager.in_range_at, hi, hj] using hr
          have h1 := GameManager.resolve_step_kills observers s i j a b hij hi hj hrange
          have hbody : GameManager.pair_body observers i j s =
              if (GameManager.alive_at (GameManager.resolve observers i j s) i &&
                  GameManager.alive_at (GameManager.resolve observers i j s) j) = true then
                GameManager.resolve observers j i (GameManager.resolve observers i j s)
              else GameManager.resolve observers i j s := by
            unfold GameManager.pair_body
            simp only [haj, hr, Bool.not_true, Bool.false_eq_true, if_false, if_true]
          have hkills : GameManager.pair_body_kills observers i j s =
              GameManager.resolve_kills observers i j s ++
                if (GameManager.alive_at (GameManager.resolve observers i j s) i &&
                    GameManager.alive_at (GameManager.resolve observers i j s) j) = true then
                  GameManager.resolve_kills observers j i (GameManager.resolve observers i j s)
                else [] := by
            unfold GameManager.pair_body_kills
            simp only [haj, hr, Bool.not_true, Bool.false_eq_true, if_false, if_true]
          rw [hbody, hkills]
          split
          · obtain ⟨a1, ha1, ak, -, ax, ay, -⟩ := h1.1.slot i a hi
            obtain ⟨b1, hb1, bk, -, bx, hby, -⟩ := h1.1.slot j b hj
            have hrange1 : b1.inKillRange a1 :=
              NPC.inKillRange_congr (NPC.inKillRange_symm hrange) bk.symm bx.symm hby.symm
                ak.symm ax.symm ay.symm
            exact h1.append (GameManager.resolve_step_kills observers _ j i b1 a1
              (Ne.symm hij) hb1 ha1 hrange1)
          · rw [List.append_nil]
            exact h1

theorem GameManager.foldl_KillRel (s0 : GameManager.BattleState) (L : List Nat)
    (f : GameManager.BattleState × List (Nat × Nat) → Nat →
      GameManager.BattleState × List (Nat × Nat))
    (hf : ∀ t x, x ∈ L → GameManager.KillRel s0 t.1 t.2 →
      GameManager.KillRel s0 (f t x).1 (f t x).2) :
    ∀ t, GameManager.KillRel s0 t.1 t.2 →
      GameManager.KillRel s0 (L.foldl f t).1 (L.foldl f t).2 := by
  induction L with
  | nil => intro t h; exact h
  | cons x L ih =>
    intro t h
    rw [List.foldl_cons]
    exact ih (fun t y hy ht => hf t y (List.mem_cons_of_mem _ hy) ht) _
      (hf t x (List.mem_cons_self _ _) h)

theorem GameManager.inner_loop_traced_step (observers : List Observer)
    (s0 : GameManager.BattleState) (t : GameManager.BattleState × List (Nat × Nat)) (i : Nat)
    (hfit : ∀ a ∈ s0.npcs, ∀ b ∈ s0.npcs, (a.x - b.x) ^ 2 + (a.y - b.y) ^ 2 < 2147483648)
    (h : GameManager.KillRel s0 t.1 t.2) :
    GameManager.KillRel s0 (GameManager.inner_loop_traced observers i t).1
      (GameManager.inner_loop_traced observers i t).2 := by
  unfold GameManager.inner_loop_traced
  apply GameManager.foldl_KillRel s0 _ _ _ t h
  intro st j hj hst
  have hij : i ≠ j := by
    have := (List.mem_range'_1.1 hj).1
    omega
  exact hst.append (GameManager.pair_body_step_kills observers st.1 i j hij (hst.1.fits hfit))

/-- The whole pair loop keeps the relation with its start state. -/
theorem GameManager.pair_loop_traced_rel (observers : List Observer)
    (s : GameManager.BattleState)
    (hfit : ∀ a ∈ s.npcs, ∀ b ∈ s.npcs, (a.x - b.x) ^ 2 + (a.y - b.y) ^ 2 < 2147483648) :
    GameManager.KillRel s (GameManager.pair_loop_traced observers s).1
      (GameManager.pair_loop_traced observers s).2 := by
  unfold GameManager.pair_loop_traced
  apply GameManager.foldl_KillRel s _ _ _ (s, []) (GameManager.KillRel.start s)
  intro st i _ hst
  unfold GameManager.outer_body_traced
  split
  · exact hst
  · exact GameManager.inner_loop_traced_step observers s st i hfit hst

theorem GameManager.inner_loop_traced_fst (observers : List Observer) (i : Nat)
    (t : GameManager.BattleState × List (Nat × Nat)) :
    (GameManager.inner_loop_traced observers i t).1 = GameManager.inner_loop observers i t.1 := by
  unfold GameManager.inner_loop_traced GameManager.inner_loop
  generalize List.range' (i + 1) (t.1.npcs.length - (i + 1)) = L
  induction L generalizing t with
  | nil => rfl
  | cons j L ih =>
    rw [List.foldl_cons, List.foldl_cons, ih]
    rfl

theorem GameManager.outer_body_traced_fst (observers : List Observer) (i : Nat)
    (t : GameManager.BattleState × List (Nat × Nat)) :
    (GameManager.outer_body_traced observers i t).1 = GameManager.outer_body observers i t.1 := by
  unfold GameManager.outer_body_traced GameManager.outer_body
  split
  · rfl
  · exact GameManager.inner_loop_traced_fst observers i t

/-- The record changes nothing: the traced pair loop computes the state of the pair loop. -/
theorem GameManager.pair_loop_traced_fst (observers : List Observer)
    (s : GameManager.BattleState) :
    (GameManager.pair_loop_traced observers s).1 = GameManager.pair_loop observers s := by
  unfold GameManager.pair_loop_traced GameManager.pair_loop
  have key : ∀ (L : List Nat) (t : GameManager.BattleState × List (Nat × Nat)),
      (L.foldl (fun st i => GameManager.outer_body_traced observers i st) t).1 =
        L.foldl (fun st i => GameManager.outer_body observers i st) t.1 := by
    intro L
    induction L with
    | nil => intro t; rfl
    | cons i L ih =>
      intro t
      rw [List.foldl_cons, List.foldl_cons, ih, GameManager.outer_body_traced_fst]
  exact key _ _

/-- C11 (amended): in one combat-loop tick on a registry in which the squared distance of
every two entities fits an `int` (so on every registry of entities on the map), for all
observers and dice: the pair loop changes no position (nor kind, name or number of slots), so
positions are those at the start of the tick; every kill of the tick, recorded as (attacker
slot, victim slot), is between two different slots with
`(xa-xb)^2 + (ya-yb)^2 <= min(kd_a, kd_b)^2`, the victim alive before and dead after; every
slot that died in the tick is the victim of a recorded kill; every `on_kill` invocation names
such a pair; the inner-loop body does nothing for a pair that fails the range test; the kill
distance is 10 for Orc and Bear and 5 for Squirrel; two Orcs at (0,0) and (5,0) are in
range. -/
theorem C11_kills_within_range (observers : List Observer) (s : GameManager.BattleState)
    (hfit : ∀ a ∈ s.npcs, ∀ b ∈ s.npcs, (a.x - b.x) ^ 2 + (a.y - b.y) ^ 2 < 2147483648) :
    ((GameManager.pair_loop observers s).npcs.length = s.npcs.length ∧
      (∀ (k : Nat) (n : NPC), (GameManager.pair_loop observers s).npcs[k]? = some n →
        ∃ n0 : NPC, s.npcs[k]? = some n0 ∧ n.x = n0.x ∧ n.y = n0.y ∧ n.kind = n0.kind ∧
          n.name = n0.name) ∧
      (∀ n ∈ (GameManager.battle_tick observers s).npcs,
        ∃ n0 ∈ s.npcs, n.x = n0.x ∧ n.y = n0.y ∧ n.kind = n0.kind ∧ n.name = n0.name)) ∧
    (GameManager.pair_loop_traced observers s).1 = GameManager.pair_loop observers s ∧
    (∀ p ∈ GameManager.tick_kills observers s, p.1 ≠ p.2 ∧
      ∃ c b : NPC, s.npcs[p.1]? = some c ∧ s.npcs[p.2]? = some b ∧ b.alive = true ∧
        GameManager.alive_at (GameManager.pair_loop observers s) p.2 = false ∧
        (c.x - b.x) ^ 2 + (c.y - b.y) ^ 2 ≤
          (min c.get_kill_distance b.get_kill_distance) ^ 2) ∧
    (∀ (d : Nat) (b : NPC), s.npcs[d]? = some b → b.alive = true →
      GameManager.alive_at (GameManager.pair_loop observers s) d = false →
      ∃ a : Nat, (a, d) ∈ GameManager.tick_kills observers s) ∧
    (∃ new, (GameManager.battle_tick observers s).log = s.log ++ new ∧
      ∀ e ∈ new, ∃ (a d : Nat) (c b : NPC), a ≠ d ∧ s.npcs[a]? = some c ∧
        s.npcs[d]? = some b ∧ e.killer = c.name ∧ e.victim = b.name ∧ b.alive = true ∧
        GameManager.alive_at (GameManager.pair_loop observers s) d = false ∧
        (c.x - b.x) ^ 2 + (c.y - b.y) ^ 2 ≤
          (min c.get_kill_distance b.get_kill_distance) ^ 2) ∧
    (∀ (i j : Nat) (st : GameManager.BattleState), GameManager.in_range_at st i j = false →
      GameManager.pair_body observers i j st = st) ∧
    (∀ n : NPC, (n.kind = Kind.Orc → n.get_kill_distance = 10) ∧
      (n.kind = Kind.Bear → n.get_kill_distance = 10) ∧
      (n.kind = Kind.Squirrel → n.get_kill_distance = 5)) ∧
    GameManager.in_range_at twoOrcs 0 1 = true := by
  have hrel := GameManager.pair_loop_traced_rel observers s hfit
  have hfst := GameManager.pair_loop_traced_fst observers s
  rw [hfst] at hrel
  obtain ⟨⟨hlen, hslots, -, hlog⟩, hkills, hdeaths⟩ := hrel
  refine ⟨⟨hlen, ?_, ?_⟩, hfst, hkills, hdeaths, hlog, ?_, ?_, by decide⟩
  · intro k n hn
    obtain ⟨n0, hn0, hk, hnm, hx, hy, -⟩ := hslots k n hn
    exact ⟨n0, hn0, hx, hy, hk, hnm⟩
  · intro n hn
    simp only [GameManager.battle_tick, GameManager.sweep, List.mem_filter] at hn
    obtain ⟨k, hk⟩ := List.mem_iff_getElem?.1 hn.1
    obtain ⟨n0, hn0, hkind, hnm, hx, hy, -⟩ := hslots k n hk
    exact ⟨n0, List.mem_iff_getElem?.2 ⟨k, hn0⟩, hx, hy, hkind, hnm⟩
  · intro i j st h
    exact GameManager.in_range_at_false observers i j st h
  · intro n
    unfold NPC.get_kill_distance
    refine ⟨fun h => ?_, fun h => ?_, fun h => ?_⟩ <;> rw [h]

/-- Witness for C11: Orc "A" at (0,0) and Orc "B" at (5,0) with the rolls 6 and 1; the one
kill of the tick is slot 0 on slot 1, and the two slots are within kill range. -/
theorem C11_kills_within_range_witness :
    (∀ a ∈ twoOrcs.npcs, ∀ b ∈ twoOrcs.npcs,
        (a.x - b.x) ^ 2 + (a.y - b.y) ^ 2 < 2147483648) ∧
      GameManager.tick_kills [Observer.ConsoleObserver] twoOrcs = [(0, 1)] ∧
      ((0 : Nat) ≠ 1 ∧
        ∃ c b : NPC, twoOrcs.npcs[0]? = some c ∧ twoOrcs.npcs[1]? = some b ∧ b.alive = true ∧
          GameManager.alive_at (GameManager.pair_loop [Observer.ConsoleObserver] twoOrcs) 1
            = false ∧
          (c.x - b.x) ^ 2 + (c.y - b.y) ^ 2 ≤
            (min c.get_kill_distance b.get_kill_distance) ^ 2) :=
  ⟨by decide, by decide,
    (C11_kills_within_range [Observer.ConsoleObserver] twoOrcs (by decide)).2.2.1 (0, 1)
      (by decide)⟩

/-- C11 as stated fails on Orc "A" at (65536,0) and Orc "B" at (0,0) with the rolls 6 and 1:
`65536 * 65536` wraps to 0 in `int`, the range test passes, "A" kills "B" and the observer is
told ("A","B"), although the squared distance 4294967296 exceeds `min(10,10)^2 = 100`; no slot
of the registry is within kill range of "B". -/
theorem C11_wrapped_distance_kill :
    GameManager.in_range_at farOrcs 0 1 = true ∧
      GameManager.alive_at farOrcs 1 = true ∧
      GameManager.alive_at (GameManager.pair_loop [Observer.ConsoleObserver] farOrcs) 1
        = false ∧
      GameManager.tick_kills [Observer.ConsoleObserver] farOrcs = [(0, 1)] ∧
      (GameManager.battle_tick [Observer.ConsoleObserver] farOrcs).log =
        [⟨Observer.ConsoleObserver, "A", "B"⟩] ∧
      ¬ ((65536 - 0 : Int) ^ 2 + (0 - 0) ^ 2 ≤
        (min (⟨Kind.Orc, "A", 65536, 0, true⟩ : NPC).get_kill_distance
          (⟨Kind.Orc, "B", 0, 0, true⟩ : NPC).get_kill_distance) ^ 2) ∧
      ¬ ∃ (a : Nat) (c : NPC), a ≠ 1 ∧ farOrcs.npcs[a]? = some c ∧
        (c.x - 0) ^ 2 + (c.y - 0) ^ 2 ≤
          (min c.get_kill_distance (⟨Kind.Orc, "B", 0, 0, true⟩ : NPC).get_kill_distance) ^ 2 := by
  refine ⟨by decide, by decide, by decide, by decide, by decide, by decide, ?_⟩
  rintro ⟨a, c, hne, hc, hle⟩
  match a, hne, hc with
  | 0, _, hc =>
    have hc2 : c = ⟨Kind.Orc, "A", 65536, 0, true⟩ := (Option.some.inj hc).symm
    subst hc2
    revert hle
    decide
  | 1, hne, _ => exact hne rfl
  | n + 2, _, hc => cases hc

/-! ## Lock order theorems -/

/-- C12, the code run on its lock actions: a tick of the combat loop that makes a kill (two
Orcs in range, rolls 6 and 1, the observers of the constructor) acquires `cout_mutex` inside
`ConsoleObserver::on_kill` while it holds `npcs_mutex`; one iteration of the render loop
acquires `npcs_mutex` while it holds `cout_mutex`. When the combat thread has taken
`npcs_mutex` and the render thread has taken `cout_mutex`, neither thread can perform its next
lock action: the two loops are deadlocked on these two locks. -/
theorem C12_lock_order_inversion :
    GameManager.battle_worker_locks GameManager.observers twoOrcs =
        [LockOp.acquire Mutex.npcs_mutex, LockOp.acquire Mutex.cout_mutex,
          LockOp.release Mutex.cout_mutex, LockOp.acquire Mutex.file_mutex,
          LockOp.release Mutex.file_mutex, LockOp.release Mutex.npcs_mutex] ∧
      (Mutex.npcs_mutex, Mutex.cout_mutex) ∈
        lockOrderPairs [] (GameManager.battle_worker_locks GameManager.observers twoOrcs) ∧
      (Mutex.cout_mutex, Mutex.npcs_mutex) ∈ lockOrderPairs [] GameManager.display_worker_locks ∧
      (Mutex.cout_mutex, Mutex.npcs_mutex) ∈ lockOrderPairs [] GameManager.print_map_locks ∧
      (Sched.run [0, 1] battleAndDisplay).map Sched.deadlocked = some true ∧
      (Sched.run [0, 1] battleAndDisplay).map (fun s => s.owner) =
        some [(Mutex.cout_mutex, 1), (Mutex.npcs_mutex, 0)] := by
  decide
